import Mathlib

/-!
Shallow embedding of the `ink` repository's job-orchestration code
(`main.py` and `src/ink/vasp/jobs.py`) and proofs about it.

Python dictionaries are modelled as association lists in insertion
order (`Entries V`), Python's `dict.update` as `updateE`, and the
side-effecting CLI flows as pure functions producing event traces over
an explicit environment (which files exist, what external commands
return, how the user answers prompts).
-/

namespace Ink


/-- A Python `dict` with `String` keys, in insertion order. -/
abbrev Entries (V : Type) := List (String × V)


/-- `d.get(k)`: the value at the first (for a real dict: only) entry with key `k`. -/
def getE {V : Type} : Entries V → String → Option V
  | [], _ => none
  | p :: rest, key => if p.1 = key then some p.2 else getE rest key


/-- Whether some entry has key `k`. -/
def hasKey {V : Type} (es : Entries V) (k : String) : Bool :=
  es.any (fun p => p.1 == k)


/-- `d[k] = v` on a Python dict: replace the value in place if the key is
present, otherwise append the new binding at the end. -/
def setKey {V : Type} (es : Entries V) (k : String) (v : V) : Entries V :=
  if hasKey es k then es.map (fun p => if p.1 = k then (k, v) else p)
  else es ++ [(k, v)]


/-- `base.update(other)` on Python dicts: fold `setKey` over `other`'s
entries in order. -/
def updateE {V : Type} (base other : Entries V) : Entries V :=
  other.foldl (fun acc kv => setKey acc kv.1 kv.2) base


/-- The keys of a dict, in order. -/
def keysE {V : Type} (es : Entries V) : List String :=
  es.map Prod.fst


/-- Result of loading one `vasp_config.yaml` source in `Job.__init__`:
the file can be missing, parse to a non-dict (then it is ignored), or
parse to a mapping. -/
inductive LoadResult (V : Type) where
  | missing
  | nonDict
  | dict (d : Entries V)


/-- One `if path.is_file(): data = yaml.load(f); if isinstance(data, dict):
config.update(data)` block of `Job.__init__`. -/
def loadStep {V : Type} (acc : Entries V) (r : LoadResult V) : Entries V :=
  match r with
  | .dict d => updateE acc d
  | _ => acc


/-- The merged configuration built by `Job.__init__`: start from `{}`,
update with the module-directory config, then with the working-directory
config. -/
def jobConfig {V : Type} (moduleRes cwdRes : LoadResult V) : Entries V :=
  loadStep (loadStep ([] : Entries V) moduleRes) cwdRes


-- ------------------------------------------------------------------
-- Value model for the jobs.py configuration
-- ------------------------------------------------------------------

/-- A value inside a task section of the jobs.py config (third level of
nesting flattened to string pairs, which is all the code ever reads). -/
inductive CLeaf where
  | null
  | str (s : String)
  | int (n : Int)
  | dict (entries : List (String × String))
deriving DecidableEq, Repr


/-- A top-level config value in jobs.py: `null`, a scalar, or a task
section mapping option names to `CLeaf` values. -/
inductive CVal where
  | null
  | str (s : String)
  | int (n : Int)
  | dict (entries : List (String × CLeaf))
deriving DecidableEq, Repr


/-- Python exceptions that the modelled code can raise. -/
inductive PyErr where
  | fileNotFound
  | runtimeError
  | valueError
  | attributeError
  | typeError
  | calledProcessError
  | abortTasks
  | abort
deriving DecidableEq, Repr


-- ------------------------------------------------------------------
-- C6: Job._resolve_path
-- ------------------------------------------------------------------

/-- `Job._resolve_path`: explicit argument wins; otherwise
`section_cfg = self.config.get(section) or {}` followed by
`section_cfg.get(key)`, raising `ValueError` when that is `None`.
A truthy non-dict section value survives Python's `or` and then crashes
with `AttributeError` on `.get`. -/
def resolvePath (arg : Option CLeaf) (config : Entries CVal) (sec key : String) :
    Except PyErr CLeaf :=
  match arg with
  | some a => .ok a
  | none =>
    let keyLookup : List (String × CLeaf) → Except PyErr CLeaf := fun d =>
      match getE d key with
      | some CLeaf.null => .error .valueError
      | some v => .ok v
      | none => .error .valueError
    match getE config sec with
    | some (CVal.dict d) => keyLookup d
    | some CVal.null => keyLookup []
    | some (CVal.str s) => if s = "" then keyLookup [] else .error .attributeError
    | some (CVal.int n) => if n = 0 then keyLookup [] else .error .attributeError
    | none => keyLookup []


/-- The value that the configuration defines for `config[section][key]`:
the section must be a mapping and the key must be bound to a non-null
value (a YAML `key:` with no value parses to `None`, which
`_resolve_path` treats the same as an absent key). -/
def cfgDefinedValue (config : Entries CVal) (sec key : String) : Option CLeaf :=
  match getE config sec with
  | some (CVal.dict d) =>
    match getE d key with
    | some CLeaf.null => none
    | some v => some v
    | none => none
  | _ => none


-- ------------------------------------------------------------------
-- C8, C9: Job.__init__ as a state transformer
-- ------------------------------------------------------------------

/-- Serialization of a section-level value, standing in for the external
`ruamel` dumper (whose exact text format is owned by the library; the
claims only need that the written file holds the serialization of the
merged config). -/
def dumpLeaf : CLeaf → String
  | .null => "null"
  | .str s => s
  | .int n => toString n
  | .dict e => String.intercalate ", " (e.map (fun p => p.1 ++ "=" ++ p.2))


/-- Serialization of a top-level config value. -/
def dumpCVal : CVal → String
  | .null => "null"
  | .str s => s
  | .int n => toString n
  | .dict e => String.intercalate "; " (e.map (fun p => p.1 ++ ": " ++ dumpLeaf p.2))


/-- Serialization of a whole merged config, standing in for
`yaml.dump(self.config, f)`. -/
def dumpConfig (c : Entries CVal) : String :=
  String.intercalate "\n" (c.map (fun p => p.1 ++ ": " ++ dumpCVal p.2))


/-- The state of a freshly constructed `Job`: the merged config, the
resolved working directory (which is also the process's current directory
after `os.chdir`), and the filesystem, a map from paths to file contents. -/
structure JobState where
  config : Entries CVal
  workDir : String
  cwd : String
  fs : Entries String
deriving DecidableEq, Repr


/-- `Job.__init__` after the two config loads: resolve
`self.config.get("global").get("work_dir")` (an `AttributeError` when the
merged config has no `global` mapping, since `.get` is called on `None` —
or on a non-dict value), fall back to the current directory when the key
is `None` or absent, `mkdir`/`chdir` the working directory, and overwrite
`vasp_config.yaml` there with the merged config
(`_write_merged_config_to_cwd`).  Directory creation is not a file write;
`Path(work_dir_cfg)` on a non-path-like value raises `TypeError`. -/
def jobInit (moduleRes cwdRes : LoadResult CVal) (cwd0 : String)
    (fs0 : Entries String) : Except PyErr JobState :=
  let config := jobConfig moduleRes cwdRes
  let finish : String → JobState := fun wd =>
    { config := config, workDir := wd, cwd := wd,
      fs := setKey fs0 (wd ++ "/vasp_config.yaml") (dumpConfig config) }
  match getE config "global" with
  | some (CVal.dict g) =>
    match getE g "work_dir" with
    | some (CLeaf.str s) => .ok (finish s)
    | some CLeaf.null => .ok (finish cwd0)
    | none => .ok (finish cwd0)
    | some (CLeaf.int _) => .error .typeError
    | some (CLeaf.dict _) => .error .typeError
  | some _ => .error .attributeError
  | none => .error .attributeError


/-- The `JobState` produced by `jobInit` on the concrete inputs of the
C8 witness. -/
def jobInitWitnessState : JobState :=
  JobState.mk [("global", CVal.dict [("work_dir", CLeaf.str "wd")])] "wd" "wd"
    [("wd/vasp_config.yaml", "global: work_dir: wd")]


-- ------------------------------------------------------------------
-- C2, C5: Job.submit
-- ------------------------------------------------------------------

/-- Python's `str.strip()` (no arguments): drop leading and trailing
whitespace. -/
def pyStrip (s : String) : String :=
  String.mk (((s.data.dropWhile Char.isWhitespace).reverse.dropWhile Char.isWhitespace).reverse)


/-- Outcome of the `subprocess.run(["qdel", old_pid], check=False)` call:
the process ran and returned an exit code (ignored, because
`check=False`), or the invocation itself raised (e.g. `qdel` is not
installed), which the surrounding `try/except Exception` catches. -/
inductive QdelOutcome where
  | exitCode (n : Nat)
  | raised
deriving DecidableEq, Repr


/-- Whether the cancellation attempt failed. -/
def QdelOutcome.failed : QdelOutcome → Bool
  | .exitCode n => n != 0
  | .raised => true


/-- The environment `Job.submit` runs in: the `qsub.pid` file and the
behaviour of the scheduler commands. -/
structure SubmitEnv where
  pidFileExists : Bool
  pidFileContent : String
  qdelOutcome : QdelOutcome
  qsubExit : Nat
  qsubStdout : String
deriving DecidableEq, Repr


/-- The externally visible steps of `Job.submit`. -/
inductive SubmitEvent where
  | qdel (pid : String)
  | qsub
  | persistPid (pid : String)
deriving DecidableEq, Repr


/-- Result of `Job.submit`: the scheduler interactions in order, the
`print` messages, and the exception propagated to the caller, if any. -/
structure SubmitResult where
  events : List SubmitEvent
  logs : List String
  err : Option PyErr
deriving DecidableEq, Repr


/-- `Job.submit`: read `qsub.pid` if present; when its stripped content is
non-empty, attempt `qdel` of the old id (`check=False`, any exception
caught and printed); then `qsub jobscript.sh` with `check=True` (a
non-zero exit propagates `CalledProcessError`); then persist the stripped
stdout to `qsub.pid` when it is non-empty. -/
def submit (env : SubmitEnv) : SubmitResult :=
  let oldPid := pyStrip env.pidFileContent
  let cancel : List SubmitEvent × List String :=
    if env.pidFileExists then
      if oldPid ≠ "" then
        let logs0 := ["Found existing job ID " ++ oldPid ++ ". Cancelling..."]
        match env.qdelOutcome with
        | .exitCode _ => ([.qdel oldPid], logs0)
        | .raised => ([.qdel oldPid], logs0 ++ ["Failed to cancel job " ++ oldPid])
      else ([], [])
    else ([], [])
  if env.qsubExit ≠ 0 then
    { events := cancel.1 ++ [.qsub], logs := cancel.2, err := some .calledProcessError }
  else
    let newPid := pyStrip env.qsubStdout
    if newPid ≠ "" then
      { events := cancel.1 ++ [.qsub, .persistPid newPid],
        logs := cancel.2 ++ ["Submitted job " ++ newPid ++ ". PID saved to qsub.pid."],
        err := none }
    else
      { events := cancel.1 ++ [.qsub], logs := cancel.2, err := none }


/-- Concrete environment for the C2 witness: a stale pid file, a working
`qdel`, and a `qsub` that prints the new job id. -/
def submitEnvA : SubmitEnv :=
  SubmitEnv.mk true "101.head\n" (QdelOutcome.exitCode 0) 0 "102.head\n"


/-- Concrete environment for the C5 witness: `qdel` exits non-zero. -/
def submitEnvB : SubmitEnv :=
  SubmitEnv.mk true "101" (QdelOutcome.exitCode 1) 0 "102"


-- ------------------------------------------------------------------
-- main.py: task processing model (C3, C4, C7, C10)
-- ------------------------------------------------------------------

/-- Kernel-reducible `s.startswith(pre)`. -/
def pyStartsWith (s pre : String) : Bool :=
  s.data.take pre.data.length == pre.data


/-- Kernel-reducible drop of the first `n` characters. -/
def pyDrop (s : String) (n : Nat) : String :=
  String.mk (s.data.drop n)


/-- A value inside a task section, as `main.py` reads it (flattening the
scalar types the code distinguishes; YAML lists never reach these code
paths). -/
inductive SVal where
  | str (s : String)
  | null
  | int (n : Int)
  | dict (entries : List (String × String))
deriving DecidableEq, Repr


/-- Python truthiness of a section value. -/
def SVal.truthy : SVal → Bool
  | .str s => !(s == "")
  | .null => false
  | .int n => !(n == 0)
  | .dict e => !e.isEmpty


/-- Python `str()` of a section value.  The code only ever applies it to
path or command strings; the reprs of the other scalars are modelled by
their Python text. -/
def SVal.pyStr : SVal → String
  | .str s => s
  | .null => "None"
  | .int n => toString n
  | .dict _ => "mapping-repr"


/-- A top-level config value as `main.py` reads it: a task section
(any YAML mapping) or a scalar. -/
inductive TopVal where
  | sect (cfg : List (String × SVal))
  | str (s : String)
  | null
  | int (n : Int)
deriving DecidableEq, Repr


/-- Python truthiness of a top-level value. -/
def TopVal.truthy : TopVal → Bool
  | .sect e => !e.isEmpty
  | .str s => !(s == "")
  | .null => false
  | .int n => !(n == 0)


/-- The parsed `vasp_config.yaml`, in document order. -/
abbrev MainConfig := List (String × TopVal)


/-- Events observable in a `main.py` run. -/
inductive MEvent where
  | visit (task : String)
  | write (path : String)
  | runCmd (task : String) (cmd : String)
  | prompt (task : String)
  | qsub (task : String)
  | skipQsub (task : String)
  | abortNote
deriving DecidableEq, Repr


/-- The environment a `main.py` run executes in: the parsed config file
(`none` = file missing), whether `shutil.which` finds vaspkit, the
resolved vaspkit executable name, the files that exist in the work dir
before the run, the uniform answer the user gives to confirmation
prompts, and whether external commands succeed. -/
structure MainEnv where
  configFile : Option MainConfig
  vaspkitFound : Bool
  vaspkitCmd : String
  exists0 : List String
  userConfirms : Bool
  cmdOk : Bool
deriving DecidableEq, Repr


/-- Whether a path (relative to the work dir) names an existing file:
either present initially or written earlier in this run. -/
def fileEx (exists0 written : List String) (p : String) : Bool :=
  exists0.contains p || written.contains p


/-- Accumulated outcome of one `_process_task` call: its events in order,
the files written so far in the whole run, and the pending exception. -/
structure TaskOut where
  events : List MEvent
  written : List String
  err : Option PyErr
deriving DecidableEq, Repr


/-- Exception short-circuiting between the statements of a task. -/
def tstep (o : TaskOut) (f : TaskOut → TaskOut) : TaskOut :=
  if o.err.isSome then o else f o


/-- Append events and written files. -/
def emitW (o : TaskOut) (evs : List MEvent) (paths : List String) : TaskOut :=
  { o with events := o.events ++ evs, written := o.written ++ paths }


/-- Raise an exception. -/
def fail (o : TaskOut) (e : PyErr) : TaskOut :=
  { o with err := some e }


/-- `_prepare_poscar`: make the task dir (a directory, not a file),
check that the source exists, raise `FileNotFoundError` otherwise, then
copy it to `task/POSCAR`. -/
def preparePoscar (exists0 : List String) (task spec : String) (o : TaskOut) : TaskOut :=
  if fileEx exists0 o.written spec then
    emitW o [.write (task ++ "/POSCAR")] [task ++ "/POSCAR"]
  else fail o .fileNotFound


/-- `_prepare_chgcar`: same shape as `_prepare_poscar` for `CHGCAR`. -/
def prepareChgcar (exists0 : List String) (task spec : String) (o : TaskOut) : TaskOut :=
  if fileEx exists0 o.written spec then
    emitW o [.write (task ++ "/CHGCAR")] [task ++ "/CHGCAR"]
  else fail o .fileNotFound


/-- `_run_command_in_task`: no-op on an empty command; strip it; replace a
leading `vaspkit` (7 characters) with the configured executable;
`subprocess.run(check=True)` propagates `CalledProcessError` on
failure. -/
def runCommandInTask (vaspkitCmd : String) (cmdOk : Bool) (task rawCmd : String)
    (o : TaskOut) : TaskOut :=
  if rawCmd = "" then o
  else
    let cmd0 := pyStrip rawCmd
    let cmd := if pyStartsWith cmd0 "vaspkit" then vaspkitCmd ++ pyDrop cmd0 7 else cmd0
    let o2 := emitW o [.runCmd task cmd] []
    if cmdOk then o2 else fail o2 .calledProcessError


/-- `_write_incar` (main.py): write `KEY = value` lines to `task/INCAR`;
an empty (falsy) dict writes nothing. -/
def writeIncarMain (task : String) (entries : List (String × String)) (o : TaskOut) : TaskOut :=
  if entries.isEmpty then o
  else emitW o [.write (task ++ "/INCAR")] [task ++ "/INCAR"]


/-- `_write_jobscript` (main.py): empty content writes nothing (the path
is still returned); otherwise write the script content and chmod +x. -/
def writeJobscriptMain (task content : String) (o : TaskOut) : TaskOut :=
  if content = "" then o
  else emitW o [.write (task ++ "/jobscript.sh")] [task ++ "/jobscript.sh"]


/-- `_submit_job`: report and skip when the jobscript file does not
exist; otherwise, unless `auto_yes`, prompt — a declined prompt raises
`AbortTasks`; then run `qsub` (`check=True`). -/
def submitJob (exists0 : List String) (task : String)
    (autoYes userConfirms cmdOk : Bool) (o : TaskOut) : TaskOut :=
  let scriptPath := task ++ "/jobscript.sh"
  if !(fileEx exists0 o.written scriptPath) then
    emitW o [.skipQsub task] []
  else
    let go : TaskOut → TaskOut := fun o2 =>
      let o3 := emitW o2 [.qsub task] []
      if cmdOk then o3 else fail o3 .calledProcessError
    if autoYes then go o
    else
      let o2 := emitW o [.prompt task] []
      if userConfirms then go o2 else fail o2 .abortTasks


/-- The `poscar` statement of `_process_task`: `task_cfg.get("poscar")`,
then `_prepare_poscar` on its `str()` when truthy. -/
def poscarStepMain (env : MainEnv) (cfg : Entries SVal) (task : String) (o : TaskOut) : TaskOut :=
  match getE cfg "poscar" with
  | some v => if v.truthy then preparePoscar env.exists0 task v.pyStr o else o
  | none => o


/-- The `chgcar` statement of `_process_task`. -/
def chgcarStepMain (env : MainEnv) (cfg : Entries SVal) (task : String) (o : TaskOut) : TaskOut :=
  match getE cfg "chgcar" with
  | some v => if v.truthy then prepareChgcar env.exists0 task v.pyStr o else o
  | none => o


/-- The `potcar` statement of `_process_task`: run the configured command. -/
def potcarStepMain (env : MainEnv) (cfg : Entries SVal) (task : String) (o : TaskOut) : TaskOut :=
  match getE cfg "potcar" with
  | some v => if v.truthy then runCommandInTask env.vaspkitCmd env.cmdOk task v.pyStr o else o
  | none => o


/-- The `kpoints` statement of `_process_task`: run the configured command. -/
def kpointsStepMain (env : MainEnv) (cfg : Entries SVal) (task : String) (o : TaskOut) : TaskOut :=
  match getE cfg "kpoints" with
  | some v => if v.truthy then runCommandInTask env.vaspkitCmd env.cmdOk task v.pyStr o else o
  | none => o


/-- The `incar` statement of `_process_task`: only a mapping value is
written (`isinstance(incar_cfg, dict)`). -/
def incarStepMain (cfg : Entries SVal) (task : String) (o : TaskOut) : TaskOut :=
  match getE cfg "incar" with
  | some (SVal.dict e) => writeIncarMain task e o
  | _ => o


/-- The `jobscript` statement of `_process_task`:
`_write_jobscript(task, work_dir, jobscript_content or "")`.  A truthy
non-string value reaches `f.write` and raises `TypeError`. -/
def jobscriptStepMain (cfg : Entries SVal) (task : String) (o : TaskOut) : TaskOut :=
  match getE cfg "jobscript" with
  | some (SVal.str s) => writeJobscriptMain task s o
  | some v => if v.truthy then fail o .typeError else writeJobscriptMain task "" o
  | none => writeJobscriptMain task "" o


/-- The file-preparation statements of `_process_task` in source order,
each later statement skipped once an exception is pending. -/
def taskBody (env : MainEnv) (cfg : Entries SVal) (task : String) (o : TaskOut) : TaskOut :=
  tstep (tstep (tstep (tstep (tstep (poscarStepMain env cfg task o)
    (chgcarStepMain env cfg task)) (potcarStepMain env cfg task))
    (kpointsStepMain env cfg task)) (incarStepMain cfg task))
    (jobscriptStepMain cfg task)


/-- `_process_task`: skip tasks whose config entry is missing or not a
mapping; otherwise handle `poscar`, `chgcar`, `potcar`, `kpoints`,
`incar`, `jobscript` and the submission, in source order. -/
def processTask (env : MainEnv) (config : MainConfig) (task : String)
    (autoYes : Bool) (written : List String) : TaskOut :=
  let o0 : TaskOut := TaskOut.mk [.visit task] written none
  match getE config task with
  | some (TopVal.sect cfg) =>
    tstep (taskBody env cfg task o0)
      (submitJob env.exists0 task autoYes env.userConfirms env.cmdOk)
  | _ => o0


/-- The `for task_name in task_order` loop of `main`, propagating the
first exception. -/
def runTasks (env : MainEnv) (config : MainConfig) (autoYes : Bool) :
    List String → List String → List MEvent × List String × Option PyErr
  | [], written => ([], written, none)
  | n :: rest, written =>
    let o := processTask env config n autoYes written
    match o.err with
    | some e => (o.events, o.written, some e)
    | none =>
      let r := runTasks env config autoYes rest o.written
      (o.events ++ r.1, r.2.1, r.2.2)


/-- `yaml_order`: the top-level config keys other than `global` and
`ending`, in document order. -/
def yamlOrder (config : MainConfig) : List String :=
  (config.map Prod.fst).filter (fun k => !(k == "global" || k == "ending"))


/-- Task selection of `main`: all of `yaml_order` when no tasks are
given; with `--from-label`, the suffix of `yaml_order` from the first
given task (`none` models the early `nothing to do` return when it is
not in `yaml_order`); otherwise exactly the given tasks. -/
def mainTaskOrder (config : MainConfig) (tasks : List String) (fromLabel : Bool) :
    Option (List String) :=
  match tasks with
  | [] => some (yamlOrder config)
  | first :: _ =>
    if fromLabel then
      if (yamlOrder config).contains first then
        some ((yamlOrder config).dropWhile (fun k => !(k == first)))
      else none
    else some tasks


/-- The error raised while resolving `config.get("global") or {}` and the
work dir, before vaspkit is checked: a truthy non-mapping `global`
survives `or` and crashes `.get` with `AttributeError`; a non-path-like
`work_dir` value crashes `Path()` with `TypeError`. -/
def globalSectionErr (config : MainConfig) : Option PyErr :=
  match getE config "global" with
  | some (TopVal.sect g) =>
    match getE g "work_dir" with
    | some (SVal.str _) => none
    | none => none
    | some _ => some .typeError
  | some v => if v.truthy then some .attributeError else none
  | none => none


/-- The `main` command: load the config (`FileNotFoundError` when the
file is missing), resolve the global section and work dir, check vaspkit
(`RuntimeError` when not found), select the task order, run the tasks,
catching `AbortTasks` (echoing a note) and propagating everything
else. -/
def mainRun (env : MainEnv) (tasks : List String) (yes fromLabel : Bool) :
    List MEvent × Option PyErr :=
  match env.configFile with
  | none => ([], some .fileNotFound)
  | some config =>
    match globalSectionErr config with
    | some e => ([], some e)
    | none =>
      if !env.vaspkitFound then ([], some .runtimeError)
      else
        match mainTaskOrder config tasks fromLabel with
        | none => ([], none)
        | some order =>
          let r := runTasks env config yes order []
          match r.2.2 with
          | some .abortTasks => (r.1 ++ [.abortNote], none)
          | e => (r.1, e)


/-- The task name of a `visit` event. -/
def visitName : MEvent → Option String
  | .visit t => some t
  | _ => none


/-- The tasks `_process_task` was entered for, in order. -/
def visitsOf (l : List MEvent) : List String :=
  l.filterMap visitName


/-- The files written, in order. -/
def writesOf (l : List MEvent) : List String :=
  l.filterMap (fun e => match e with | .write p => some p | _ => none)


/-- The prompt precedes the submission: every `qsub` for `task` is
preceded by a `prompt` for `task`. -/
def promptBeforeQsub (task : String) (l : List MEvent) : Prop :=
  MEvent.qsub task ∈ l →
    MEvent.prompt task ∈ l.takeWhile (fun e => !(e == MEvent.qsub task))


-- ------------------------------------------------------------------
-- jobs.py: Job.relax model (C3, C4)
-- ------------------------------------------------------------------

/-- CLI arguments of `Job.relax` (`None` = fall back to the config). -/
structure RelaxArgs where
  poscar : Option String
  incar : Option String
  potcar : Option String
  kpoints : Option String
  jobscript : Option String
  yes : Bool
deriving DecidableEq, Repr


/-- The environment one `Job.relax` call runs in, on an initialized
`Job`: the merged config, the files existing under the work dir before
the call, and the uniform answer to confirmation prompts. -/
structure RelaxEnv where
  config : Entries CVal
  exists0 : List String
  userConfirms : Bool
deriving DecidableEq, Repr


/-- `Job._handle_cp`: `section_cfg = self.config.get(job_type) or {}`
(a truthy non-mapping crashes `.get` with `AttributeError`), then
`section_cfg.get("cp")`; return unless that is a non-empty mapping;
copy each source that exists (relative to the work dir) to `cwd/dst`,
printing a warning and skipping sources that do not exist. -/
def handleCp (config : Entries CVal) (jobType : String) (exists0 : List String)
    (cwd : String) (o : TaskOut) : TaskOut :=
  let copies : List (String × String) → TaskOut := fun cp =>
    cp.foldl (fun acc sd =>
      if fileEx exists0 acc.written sd.1 then
        emitW acc [.write (cwd ++ "/" ++ sd.2)] [cwd ++ "/" ++ sd.2]
      else acc) o
  match getE config jobType with
  | some (CVal.dict d) =>
    match getE d "cp" with
    | some (CLeaf.dict cp) => if cp.isEmpty then o else copies cp
    | _ => o
  | some (CVal.str s) => if s = "" then o else fail o .attributeError
  | some (CVal.int n) => if n = 0 then o else fail o .attributeError
  | some CVal.null => o
  | none => o


/-- `Job._write_poscar`: a path value is parsed by
`Structure.from_file` — `FileNotFoundError` when the file does not
exist, success abstracted as "parses whenever it exists" — and written
to `cwd/POSCAR`; any other value raises `TypeError`. -/
def writePoscarJob (exists0 : List String) (cwd : String) (v : CLeaf) (o : TaskOut) : TaskOut :=
  match v with
  | CLeaf.str p =>
    if fileEx exists0 o.written p then
      emitW o [.write (cwd ++ "/POSCAR")] [cwd ++ "/POSCAR"]
    else fail o .fileNotFound
  | _ => fail o .typeError


/-- `Job._write_incar`: a path value is parsed from file (missing file
raises); a mapping is written directly; otherwise `TypeError`. -/
def writeIncarJob (exists0 : List String) (cwd : String) (v : CLeaf) (o : TaskOut) : TaskOut :=
  match v with
  | CLeaf.str p =>
    if fileEx exists0 o.written p then
      emitW o [.write (cwd ++ "/INCAR")] [cwd ++ "/INCAR"]
    else fail o .fileNotFound
  | CLeaf.dict _ => emitW o [.write (cwd ++ "/INCAR")] [cwd ++ "/INCAR"]
  | _ => fail o .typeError


/-- `Job._write_potcar`: `read_text` of a path value (missing file
raises) written to `cwd/POTCAR`; otherwise `TypeError`. -/
def writePotcarJob (exists0 : List String) (cwd : String) (v : CLeaf) (o : TaskOut) : TaskOut :=
  match v with
  | CLeaf.str p =>
    if fileEx exists0 o.written p then
      emitW o [.write (cwd ++ "/POTCAR")] [cwd ++ "/POTCAR"]
    else fail o .fileNotFound
  | _ => fail o .typeError


/-- `Job._write_kpoints`: `"line"` and numeric values generate KPOINTS
from the already-validated POSCAR source; any other path value is parsed
from file (missing file raises); every other value falls through
silently — no write, no error. -/
def writeKpointsJob (exists0 : List String) (cwd : String) (v : CLeaf) (o : TaskOut) : TaskOut :=
  match v with
  | CLeaf.str p =>
    if p = "line" then emitW o [.write (cwd ++ "/KPOINTS")] [cwd ++ "/KPOINTS"]
    else if fileEx exists0 o.written p then
      emitW o [.write (cwd ++ "/KPOINTS")] [cwd ++ "/KPOINTS"]
    else fail o .fileNotFound
  | CLeaf.int _ => emitW o [.write (cwd ++ "/KPOINTS")] [cwd ++ "/KPOINTS"]
  | _ => o


/-- One `path = self._resolve_path(...); self._write_X(path, cwd)` pair
of `Job.relax`: a resolution failure propagates, otherwise the write
runs on the resolved value. -/
def resolveWriteStep (config : Entries CVal) (arg : Option String) (key : String)
    (w : CLeaf → TaskOut → TaskOut) (o : TaskOut) : TaskOut :=
  tstep o (fun o2 =>
    match resolvePath (arg.map CLeaf.str) config "relax" key with
    | .error e => fail o2 e
    | .ok v => w v o2)


/-- The `jobscript` statement of `Job.relax`: `_write_jobscript`
distinguishes a `Path` (the CLI argument: read the file, missing file
raises) from a plain string (the config value: written literally as the
script content); any other value raises `TypeError`. -/
def jobscriptStepRelax (env : RelaxEnv) (args : RelaxArgs) (cwd : String) (o : TaskOut) : TaskOut :=
  tstep o (fun o2 =>
    match args.jobscript with
    | some p =>
      if fileEx env.exists0 o2.written p then
        emitW o2 [.write (cwd ++ "/jobscript.sh")] [cwd ++ "/jobscript.sh"]
      else fail o2 .fileNotFound
    | none =>
      match resolvePath none env.config "relax" "jobscript" with
      | .error e => fail o2 e
      | .ok (CLeaf.str _) =>
        emitW o2 [.write (cwd ++ "/jobscript.sh")] [cwd ++ "/jobscript.sh"]
      | .ok _ => fail o2 .typeError)


/-- The final gate of `Job.relax`: with `--yes`, call `self.submit`
directly; otherwise `typer.confirm("Submit job?", abort=True)` — a
declined prompt raises `Abort` — then call `self.submit`.  The `qsub`
event marks the `self.submit(cwd)` call, whose internals are modelled by
`Ink.submit`. -/
def relaxSubmitGate (cwd : String) (yes userConfirms : Bool) (o : TaskOut) : TaskOut :=
  if yes then emitW o [.qsub cwd] []
  else
    let o2 := emitW o [.prompt cwd] []
    if userConfirms then emitW o2 [.qsub cwd] [] else fail o2 .abort


/-- Everything `Job.relax` does before the confirmation gate: make the
`relax` dir, run the `cp` copies, resolve-and-write POSCAR, INCAR,
POTCAR, KPOINTS and the jobscript in source order, then run the `cp`
copies again. -/
def relaxPre (env : RelaxEnv) (args : RelaxArgs) : TaskOut :=
  let cwd := "relax"
  let o1 := handleCp env.config "relax" env.exists0 cwd (TaskOut.mk [] [] none)
  let o2 := resolveWriteStep env.config args.poscar "poscar" (writePoscarJob env.exists0 cwd) o1
  let o3 := resolveWriteStep env.config args.incar "incar" (writeIncarJob env.exists0 cwd) o2
  let o4 := resolveWriteStep env.config args.potcar "potcar" (writePotcarJob env.exists0 cwd) o3
  let o5 := resolveWriteStep env.config args.kpoints "kpoints" (writeKpointsJob env.exists0 cwd) o4
  let o6 := jobscriptStepRelax env args cwd o5
  tstep o6 (handleCp env.config "relax" env.exists0 cwd)


/-- `Job.relax` on an initialized `Job`: the preparation steps, then the
confirmation gate and the submission. -/
def relaxRun (env : RelaxEnv) (args : RelaxArgs) : TaskOut :=
  tstep (relaxPre env args) (relaxSubmitGate "relax" args.yes env.userConfirms)


/-- Is this a `visit` event? -/
def isVisitE : MEvent → Bool
  | .visit _ => true
  | _ => false


/-- Is this a `prompt` event? -/
def isPromptE : MEvent → Bool
  | .prompt _ => true
  | _ => false


/-- Is this a `qsub` event? -/
def isQsubE : MEvent → Bool
  | .qsub _ => true
  | _ => false


/-- A quiet event: a write, command run or skip note — no visit, prompt
or submission. -/
def quietE (e : MEvent) : Bool :=
  !isVisitE e && !isPromptE e && !isQsubE e


/-- Quiet-delta shape: the step appends only quiet events. -/
def QuietStep (f : TaskOut → TaskOut) : Prop :=
  ∀ o, ∃ d, (f o).events = o.events ++ d ∧ ∀ e ∈ d, quietE e = true


/-- Concrete config for the C10 witness. -/
def c10Config : MainConfig :=
  [("global", TopVal.sect []), ("relax", TopVal.sect []), ("ending", TopVal.sect [])]


/-- Concrete environment for the C10 and C4 witnesses: config present,
vaspkit found, no pre-existing files, user confirms, commands succeed. -/
def c10Env : MainEnv :=
  MainEnv.mk (some c10Config) true "vaspkit" [] true true


/-- Concrete relax environment for the C4 witness. -/
def c4RelaxEnv : RelaxEnv :=
  RelaxEnv.mk [("relax", CVal.dict [("poscar", CLeaf.str "POSCAR0")])] ["POSCAR0"] true


/-- Concrete relax arguments without `--yes` for the C4 witness. -/
def c4RelaxArgs : RelaxArgs :=
  RelaxArgs.mk none none none none none false


/-- Relax environment refuting C3 as stated: a `cp` entry whose source
exists, plus a POSCAR source that does not. -/
def c3RelaxEnv : RelaxEnv :=
  RelaxEnv.mk
    [("relax", CVal.dict [("cp", CLeaf.dict [("CONTCAR.old", "CONTCAR")]),
      ("poscar", CLeaf.str "POSCAR0")])]
    ["CONTCAR.old"] true


/-- Relax arguments taking every value from the config. -/
def c3RelaxArgs : RelaxArgs :=
  RelaxArgs.mk none none none none none false


/-- Config for the C3 and C7 witnesses: one task whose POSCAR source is
missing. -/
def c3MainConfig : MainConfig :=
  [("t1", TopVal.sect [("poscar", SVal.str "POSCAR0")])]


/-- Environment for the C3 and C7 witnesses. -/
def c3MainEnv : MainEnv :=
  MainEnv.mk (some c3MainConfig) true "vaspkit" [] true true


/-- Relax environment with no `cp` configuration for the C3 witness. -/
def c3RelaxEnvNoCp : RelaxEnv :=
  RelaxEnv.mk [("relax", CVal.dict [("poscar", CLeaf.str "POSCAR0")])] [] true


/-- Config refuting C7 as stated: a valid task whose jobscript is never
written and does not exist. -/
def c7Config : MainConfig :=
  [("global", TopVal.sect []), ("t1", TopVal.sect [])]


/-- Environment refuting C7 as stated. -/
def c7Env : MainEnv :=
  MainEnv.mk (some c7Config) true "vaspkit" [] true true


/-- Environment with no config file for the C7 witness. -/
def c7EnvNoConfig : MainEnv :=
  MainEnv.mk none true "vaspkit" [] true true


-- ------------------------------------------------------------------
-- Theorems
-- ------------------------------------------------------------------

-- ------------------------------------------------------------------
-- Lemmas about the dict operations
-- ------------------------------------------------------------------

theorem getE_eq_none_iff {V : Type} (es : Entries V) (k : String) :
    getE es k = none ↔ ∀ p ∈ es, p.1 ≠ k := by
  induction es with
  | nil => simp [getE]
  | cons hd tl ih =>
    simp only [getE]
    by_cases h : hd.1 = k
    · simp [h]
    · simp [h, ih]


theorem hasKey_false_getE {V : Type} (es : Entries V) (k : String)
    (h : hasKey es k = false) : getE es k = none := by
  rw [getE_eq_none_iff]
  intro p hp
  have := List.any_eq_false.mp h p hp
  simpa using this


theorem getE_append {V : Type} (a b : Entries V) (k : String) :
    getE (a ++ b) k = (getE a k).orElse (fun _ => getE b k) := by
  induction a with
  | nil => simp [getE, Option.orElse]
  | cons hd tl ih =>
    simp only [List.cons_append, getE]
    by_cases h : hd.1 = k <;> simp [h, ih, Option.orElse]


theorem getE_replaceMap {V : Type} (es : Entries V) (k : String) (v : V) (key : String) :
    getE (es.map (fun p => if p.1 = k then (k, v) else p)) key =
      if key = k then (if hasKey es k then some v else none) else getE es key := by
  induction es with
  | nil => simp [getE, hasKey]
  | cons hd tl ih =>
    rw [List.map_cons]
    by_cases hh : hd.1 = k
    · rw [if_pos hh]
      by_cases hk : key = k
      · subst hk
        rw [if_pos rfl]
        have hmem : hasKey (hd :: tl) key = true := by
          simp [hasKey, List.any_cons, hh]
        rw [if_pos hmem]
        simp [getE]
      · rw [getE, if_neg (fun h : k = key => hk h.symm), ih, if_neg hk, if_neg hk]
        rw [getE, if_neg (fun h : hd.1 = key => hk (h ▸ hh))]
    · rw [if_neg hh]
      by_cases hhk : hd.1 = key
      · have hk : ¬ key = k := fun h => hh (hhk.trans h)
        rw [getE, if_pos hhk, if_neg hk, getE, if_pos hhk]
      · rw [getE, if_neg hhk, ih]
        by_cases hk : key = k
        · subst hk
          rw [if_pos rfl, if_pos rfl]
          have : hasKey (hd :: tl) key = hasKey tl key := by
            simp [hasKey, List.any_cons, show (hd.1 == key) = false by simpa using hhk]
          rw [this]
        · rw [if_neg hk, if_neg hk, getE, if_neg hhk]


/-- Effect of one Python dict assignment on lookups. -/
theorem getE_setKey {V : Type} (es : Entries V) (k : String) (v : V) (key : String) :
    getE (setKey es k v) key = if key = k then some v else getE es key := by
  unfold setKey
  by_cases hmem : hasKey es k
  · rw [if_pos hmem, getE_replaceMap, if_pos hmem]
  · rw [if_neg hmem, getE_append]
    by_cases hk : key = k
    · rw [if_pos hk, hk, hasKey_false_getE es k (by simpa using hmem)]
      simp [getE, Option.orElse]
    · rw [if_neg hk]
      cases h : getE es key with
      | some v0 => simp [Option.orElse]
      | none =>
        simp only [Option.orElse, getE]
        rw [if_neg (fun hh : k = key => hk hh.symm)]


/-- Lookup after `base.update(other)`, for `other` with pairwise distinct
keys (always the case for a dict loaded from a YAML mapping): the later
source wins wherever it defines the key. -/
theorem getE_updateE {V : Type} (other : Entries V) (base : Entries V) (k : String)
    (hnd : (keysE other).Nodup) :
    getE (updateE base other) k =
      match getE other k with
      | some v => some v
      | none => getE base k := by
  induction other generalizing base with
  | nil => simp [updateE, getE]
  | cons hd tl ih =>
    have hnd2 : (hd.1 :: keysE tl).Nodup := hnd
    have hnd' : (keysE tl).Nodup := hnd2.of_cons
    have hhd : hd.1 ∉ keysE tl := (List.nodup_cons.mp hnd2).1
    have step : updateE base (hd :: tl) = updateE (setKey base hd.1 hd.2) tl := by
      simp [updateE]
    rw [step, ih _ hnd']
    by_cases hk : hd.1 = k
    · subst hk
      have htl : getE tl hd.1 = none := by
        rw [getE_eq_none_iff]
        intro p hp h
        exact hhd (by simpa [keysE, ← h] using List.mem_map_of_mem Prod.fst hp)
      have hr : getE (hd :: tl) hd.1 = some hd.2 := by simp [getE]
      rw [htl, hr]
      show getE (setKey base hd.1 hd.2) hd.1 = some hd.2
      rw [getE_setKey, if_pos rfl]
    · cases h : getE tl k with
      | some v => simp [getE, hk, h]
      | none =>
        simp only [getE, h]
        rw [if_neg hk, getE_setKey, if_neg (fun hh : k = hd.1 => hk hh.symm)]


/-- If neither dict binds `k`, neither does the updated dict
(no distinctness needed). -/
theorem getE_updateE_none {V : Type} (other base : Entries V) (k : String)
    (ho : getE other k = none) (hb : getE base k = none) :
    getE (updateE base other) k = none := by
  induction other generalizing base with
  | nil => simpa [updateE, getE]
  | cons hd tl ih =>
    have hhd : ¬ hd.1 = k := by
      intro h
      rw [getE_eq_none_iff] at ho
      exact ho hd (by simp) h
    have ho' : getE tl k = none := by
      rw [getE_eq_none_iff] at ho ⊢
      intro p hp
      exact ho p (by simp [hp])
    have step : updateE base (hd :: tl) = updateE (setKey base hd.1 hd.2) tl := by
      simp [updateE]
    rw [step]
    exact ih (setKey base hd.1 hd.2) ho'
      (by rw [getE_setKey, if_neg (fun h : k = hd.1 => hhd h.symm)]; exact hb)


-- ------------------------------------------------------------------
-- C1: the merged configuration of Job.__init__
-- ------------------------------------------------------------------

/-- C1. For every pair of YAML mappings loaded from the module-directory
`vasp_config.yaml` and the working-directory `vasp_config.yaml`, the merged
configuration built by `Job.__init__` maps each top-level key to the
working-directory file's value whenever that file defines the key, and to
the module file's value otherwise (later source wins).  The distinctness
hypotheses hold for any dict produced by parsing a YAML mapping. -/
theorem jobConfig_later_source_wins {V : Type}
    (moduleCfg cwdCfg : Entries V) (k : String)
    (hm : (keysE moduleCfg).Nodup) (hc : (keysE cwdCfg).Nodup) :
    getE (jobConfig (.dict moduleCfg) (.dict cwdCfg)) k =
      match getE cwdCfg k with
      | some v => some v
      | none => getE moduleCfg k := by
  show getE (updateE (updateE [] moduleCfg) cwdCfg) k = _
  rw [getE_updateE _ _ _ hc]
  cases h : getE cwdCfg k with
  | some v => rfl
  | none =>
    simp only []
    rw [getE_updateE _ _ _ hm]
    cases hm2 : getE moduleCfg k <;> simp [getE]


/-- Closed witness for `jobConfig_later_source_wins` at a concrete pair of
configs: the working-directory value wins for `relax`, the module value
survives for `static`. -/
theorem jobConfig_later_source_wins_witness :
    getE (jobConfig (V := Nat) (.dict [("relax", 1), ("static", 2)])
        (.dict [("relax", 10)])) "relax" =
      (match getE [("relax", 10)] "relax" with
       | some v => some v
       | none => getE [("relax", 1), ("static", 2)] "relax")
    ∧ getE (jobConfig (V := Nat) (.dict [("relax", 1), ("static", 2)])
        (.dict [("relax", 10)])) "static" =
      (match getE [("relax", 10)] "static" with
       | some v => some v
       | none => getE [("relax", 1), ("static", 2)] "static") :=
  ⟨jobConfig_later_source_wins [("relax", 1), ("static", 2)] [("relax", 10)] "relax"
      (by simp [keysE]) (by simp [keysE]),
   jobConfig_later_source_wins [("relax", 1), ("static", 2)] [("relax", 10)] "static"
      (by simp [keysE]) (by simp [keysE])⟩


/-- C6. `_resolve_path` returns the explicit CLI argument whenever one is
given; otherwise it returns the raw value of `config[section][key]`; and
it raises an error exactly when the argument is absent and the config
defines no value for the key. -/
theorem resolvePath_spec (arg : Option CLeaf) (config : Entries CVal) (sec key : String) :
    (∀ a, arg = some a → resolvePath arg config sec key = .ok a)
    ∧ (arg = none → ∀ v, cfgDefinedValue config sec key = some v →
        resolvePath arg config sec key = .ok v)
    ∧ ((∃ e, resolvePath arg config sec key = .error e)
        ↔ (arg = none ∧ cfgDefinedValue config sec key = none)) := by
  refine ⟨?_, ?_, ?_⟩
  · intro a ha
    simp [resolvePath, ha]
  · intro ha v hv
    subst ha
    unfold resolvePath cfgDefinedValue at *
    cases hs : getE config sec with
    | none => simp [hs] at hv
    | some c =>
      cases c with
      | dict d =>
        simp only [hs] at hv ⊢
        cases hk : getE d key with
        | none => simp [hk] at hv
        | some w =>
          cases w <;> simp_all
      | null => simp [hs] at hv
      | str s => simp [hs] at hv
      | int n => simp [hs] at hv
  · constructor
    · rintro ⟨e, he⟩
      cases arg with
      | some a => simp [resolvePath] at he
      | none =>
        refine ⟨rfl, ?_⟩
        unfold resolvePath at he
        unfold cfgDefinedValue
        cases hs : getE config sec with
        | none => rfl
        | some c =>
          cases c with
          | dict d =>
            simp only [hs] at he ⊢
            cases hk : getE d key with
            | none => rfl
            | some w => cases w <;> simp_all
          | null => rfl
          | str s => rfl
          | int n => rfl
    · rintro ⟨ha, hd⟩
      subst ha
      unfold resolvePath
      unfold cfgDefinedValue at hd
      cases hs : getE config sec with
      | none => exact ⟨.valueError, by simp [hs, getE]⟩
      | some c =>
        cases c with
        | dict d =>
          simp only [hs] at hd ⊢
          cases hk : getE d key with
          | none => simp [hk]
          | some w => cases w <;> simp_all
        | null => exact ⟨.valueError, by simp [hs, getE]⟩
        | str s =>
          by_cases h0 : s = "" <;> simp [hs, h0, getE]
        | int n =>
          by_cases h0 : n = 0 <;> simp [hs, h0, getE]


/-- Closed witness for `resolvePath_spec`: at a concrete config, the CLI
argument wins, the config value is returned when no argument is given,
and a missing key raises. -/
theorem resolvePath_spec_witness :
    resolvePath (some (CLeaf.str "POSCAR.cli"))
        [("relax", CVal.dict [("poscar", CLeaf.str "POSCAR.cfg")])] "relax" "poscar" =
      .ok (CLeaf.str "POSCAR.cli")
    ∧ resolvePath none
        [("relax", CVal.dict [("poscar", CLeaf.str "POSCAR.cfg")])] "relax" "poscar" =
      .ok (CLeaf.str "POSCAR.cfg")
    ∧ (∃ e, resolvePath none
        [("relax", CVal.dict [("poscar", CLeaf.str "POSCAR.cfg")])] "relax" "incar" =
      .error e) := by
  refine ⟨?_, ?_, ?_⟩
  · exact (resolvePath_spec (some (CLeaf.str "POSCAR.cli"))
      [("relax", CVal.dict [("poscar", CLeaf.str "POSCAR.cfg")])] "relax" "poscar").1
      (CLeaf.str "POSCAR.cli") rfl
  · exact (resolvePath_spec none
      [("relax", CVal.dict [("poscar", CLeaf.str "POSCAR.cfg")])] "relax" "poscar").2.1
      rfl (CLeaf.str "POSCAR.cfg") (by decide)
  · exact (resolvePath_spec none
      [("relax", CVal.dict [("poscar", CLeaf.str "POSCAR.cfg")])] "relax" "incar").2.2.mpr
      ⟨rfl, by decide⟩


/-- C8. Constructing a `Job` overwrites `vasp_config.yaml` in the working
directory with the merged configuration, before any command-specific code
runs: whenever `Job.__init__` succeeds, the file at
`workDir/vasp_config.yaml` holds the dump of the merged config, whatever
it held before, and any prior differing content is not preserved. -/
theorem jobInit_overwrites_config
    (moduleRes cwdRes : LoadResult CVal) (cwd0 : String) (fs0 : Entries String)
    (st : JobState) (h : jobInit moduleRes cwdRes cwd0 fs0 = .ok st) :
    getE st.fs (st.workDir ++ "/vasp_config.yaml") =
      some (dumpConfig (jobConfig moduleRes cwdRes))
    ∧ ∀ old, getE fs0 (st.workDir ++ "/vasp_config.yaml") = some old →
        old ≠ dumpConfig (jobConfig moduleRes cwdRes) →
        getE st.fs (st.workDir ++ "/vasp_config.yaml") ≠ some old := by
  have hfs : st.fs = setKey fs0 (st.workDir ++ "/vasp_config.yaml")
      (dumpConfig (jobConfig moduleRes cwdRes)) := by
    unfold jobInit at h
    cases hg : getE (jobConfig moduleRes cwdRes) "global" with
    | none => simp [hg] at h
    | some c =>
      cases c with
      | dict g =>
        cases hw : getE g "work_dir" with
        | none =>
          simp only [hg, hw] at h
          cases h
          rfl
        | some w =>
          cases w with
          | str s => simp only [hg, hw] at h; cases h; rfl
          | null => simp only [hg, hw] at h; cases h; rfl
          | int n => simp [hg, hw] at h
          | dict e => simp [hg, hw] at h
      | null => simp [hg] at h
      | str s => simp [hg] at h
      | int n => simp [hg] at h
  constructor
  · rw [hfs, getE_setKey, if_pos rfl]
  · intro old hold hne
    rw [hfs, getE_setKey, if_pos rfl]
    intro hcontra
    exact hne (by injection hcontra with hh; exact hh.symm)


/-- Closed witness for `jobInit_overwrites_config`: a concrete init whose
working-directory file previously held different content. -/
theorem jobInit_overwrites_config_witness :
    getE (JobState.fs jobInitWitnessState) (JobState.workDir jobInitWitnessState ++ "/vasp_config.yaml") =
      some (dumpConfig (jobConfig
        (.dict [("global", CVal.dict [("work_dir", CLeaf.str "wd")])])
        (.dict []))) := by
  exact (jobInit_overwrites_config
    (.dict [("global", CVal.dict [("work_dir", CLeaf.str "wd")])]) (.dict [])
    "cwd0" [("wd/vasp_config.yaml", "user text")] jobInitWitnessState (by rfl)).1


/-- C9. If neither config source defines a top-level `global` mapping,
`Job.__init__` crashes with an `AttributeError` (from `.get` on `None`)
rather than a clean configuration error: a `global` section is a
precondition of every `Job` command. -/
theorem jobInit_missing_global_attributeError
    (moduleCfg cwdCfg : Entries CVal) (cwd0 : String) (fs0 : Entries String)
    (hm : getE moduleCfg "global" = none) (hc : getE cwdCfg "global" = none) :
    jobInit (.dict moduleCfg) (.dict cwdCfg) cwd0 fs0 = .error .attributeError := by
  have hmerged : getE (jobConfig (.dict moduleCfg) (.dict cwdCfg)) "global" = none := by
    show getE (updateE (updateE [] moduleCfg) cwdCfg) "global" = none
    exact getE_updateE_none _ _ _ hc (getE_updateE_none _ _ _ hm (by simp [getE]))
  unfold jobInit
  simp [hmerged]


/-- Closed witness for `jobInit_missing_global_attributeError` at concrete
configs with no `global` key. -/
theorem jobInit_missing_global_attributeError_witness :
    jobInit (.dict [("relax", CVal.dict [])]) (.dict [("static", CVal.dict [])])
      "cwd0" [] = .error .attributeError :=
  jobInit_missing_global_attributeError [("relax", CVal.dict [])]
    [("static", CVal.dict [])] "cwd0" [] (by decide) (by decide)


/-- C2. When `qsub.pid` exists with non-empty content, `Job.submit` first
attempts cancellation of the old job id, then submits via `qsub`, then
persists the new job id captured from `qsub`'s stdout — in exactly this
order (stated for a successful `qsub` that prints a job id). -/
theorem submit_order (env : SubmitEnv)
    (hex : env.pidFileExists = true)
    (hold : pyStrip env.pidFileContent ≠ "")
    (hexit : env.qsubExit = 0)
    (hout : pyStrip env.qsubStdout ≠ "") :
    (submit env).events =
      [.qdel (pyStrip env.pidFileContent), .qsub, .persistPid (pyStrip env.qsubStdout)]
    ∧ (submit env).err = none := by
  unfold submit
  cases hq : env.qdelOutcome <;>
    simp [hex, hold, hexit, hout, hq]


/-- Closed witness for `submit_order` at a concrete environment. -/
theorem submit_order_witness :
    (submit submitEnvA).events =
      [.qdel (pyStrip "101.head\n"), .qsub, .persistPid (pyStrip "102.head\n")]
    ∧ (submit submitEnvA).err = none :=
  submit_order submitEnvA rfl (by decide) rfl (by decide)


/-- C5. When cancelling the previous job fails — `qdel` exits non-zero or
cannot be invoked at all — `Job.submit` does not propagate the failure:
the caller sees no exception from it, the new submission still happens,
and in the cannot-be-invoked case the failure is printed. -/
theorem submit_cancel_failure_swallowed (env : SubmitEnv)
    (hex : env.pidFileExists = true)
    (hold : pyStrip env.pidFileContent ≠ "")
    (hfail : env.qdelOutcome.failed = true)
    (hexit : env.qsubExit = 0) :
    (submit env).err = none
    ∧ SubmitEvent.qsub ∈ (submit env).events
    ∧ (env.qdelOutcome = .raised →
        ("Failed to cancel job " ++ pyStrip env.pidFileContent) ∈ (submit env).logs) := by
  unfold submit
  cases hq : env.qdelOutcome with
  | exitCode n =>
    by_cases hnew : pyStrip env.qsubStdout ≠ "" <;>
      simp [hex, hold, hexit, hq, hnew]
  | raised =>
    by_cases hnew : pyStrip env.qsubStdout ≠ "" <;>
      simp [hex, hold, hexit, hq, hnew]


/-- Closed witness for `submit_cancel_failure_swallowed`: `qdel` exits 1,
yet the new job is still submitted with no exception. -/
theorem submit_cancel_failure_swallowed_witness :
    (submit submitEnvB).err = none
    ∧ SubmitEvent.qsub ∈ (submit submitEnvB).events :=
  ⟨(submit_cancel_failure_swallowed submitEnvB rfl (by decide) (by decide) rfl).1,
   (submit_cancel_failure_swallowed submitEnvB rfl (by decide) (by decide) rfl).2.1⟩


-- ------------------------------------------------------------------
-- Event-shape lemmas: each step only appends events of known kinds
-- ------------------------------------------------------------------

theorem visitsOf_append_quiet (a d : List MEvent)
    (h : ∀ e ∈ d, isVisitE e = false) : visitsOf (a ++ d) = visitsOf a := by
  have hnil : visitsOf d = [] := by
    rw [visitsOf, List.filterMap_eq_nil_iff]
    intro e he
    have hh := h e he
    cases e <;> simp [isVisitE] at hh ⊢ <;> rfl
  calc visitsOf (a ++ d) = visitsOf a ++ visitsOf d := by
        simp [visitsOf, List.filterMap_append]
    _ = visitsOf a := by rw [hnil, List.append_nil]


theorem prompt_notin_append (a d : List MEvent) (t : String)
    (ha : MEvent.prompt t ∉ a) (h : ∀ e ∈ d, isPromptE e = false) :
    MEvent.prompt t ∉ a ++ d := by
  intro hmem
  rcases List.mem_append.mp hmem with hx | hx
  · exact ha hx
  · have := h _ hx
    simp [isPromptE] at this


theorem qsub_notin_append (a d : List MEvent) (t : String)
    (ha : MEvent.qsub t ∉ a) (h : ∀ e ∈ d, isQsubE e = false) :
    MEvent.qsub t ∉ a ++ d := by
  intro hmem
  rcases List.mem_append.mp hmem with hx | hx
  · exact ha hx
  · have := h _ hx
    simp [isQsubE] at this


theorem quietStep_tstep {f : TaskOut → TaskOut} (hf : QuietStep f) :
    QuietStep (fun o => tstep o f) := by
  intro o
  show ∃ d, (tstep o f).events = o.events ++ d ∧ ∀ e ∈ d, quietE e = true
  unfold tstep
  split
  · exact ⟨[], by simp, by simp⟩
  · exact hf o


theorem quietStep_preparePoscar (ex : List String) (task spec : String) :
    QuietStep (preparePoscar ex task spec) := by
  intro o
  unfold preparePoscar
  split
  · exact ⟨[.write (task ++ "/POSCAR")], rfl, by simp [quietE, isVisitE, isPromptE, isQsubE]⟩
  · exact ⟨[], by simp [fail], by simp⟩


theorem quietStep_prepareChgcar (ex : List String) (task spec : String) :
    QuietStep (prepareChgcar ex task spec) := by
  intro o
  unfold prepareChgcar
  split
  · exact ⟨[.write (task ++ "/CHGCAR")], rfl, by simp [quietE, isVisitE, isPromptE, isQsubE]⟩
  · exact ⟨[], by simp [fail], by simp⟩


theorem quietStep_runCommandInTask (vk : String) (ok : Bool) (task raw : String) :
    QuietStep (runCommandInTask vk ok task raw) := by
  intro o
  simp only [runCommandInTask]
  split
  · exact ⟨[], by simp, by simp⟩
  · split
    · exact ⟨_, rfl, by
        intro e he
        rw [List.mem_singleton] at he
        subst he
        rfl⟩
    · exact ⟨_, rfl, by
        intro e he
        rw [List.mem_singleton] at he
        subst he
        rfl⟩


theorem quietStep_writeIncarMain (task : String) (entries : List (String × String)) :
    QuietStep (writeIncarMain task entries) := by
  intro o
  unfold writeIncarMain
  split
  · exact ⟨[], by simp, by simp⟩
  · exact ⟨[.write (task ++ "/INCAR")], rfl, by simp [quietE, isVisitE, isPromptE, isQsubE]⟩


theorem quietStep_writeJobscriptMain (task content : String) :
    QuietStep (writeJobscriptMain task content) := by
  intro o
  unfold writeJobscriptMain
  split
  · exact ⟨[], by simp, by simp⟩
  · exact ⟨[.write (task ++ "/jobscript.sh")], rfl, by simp [quietE, isVisitE, isPromptE, isQsubE]⟩


theorem quietStep_poscarStepMain (env : MainEnv) (cfg : Entries SVal) (task : String) :
    QuietStep (poscarStepMain env cfg task) := by
  intro o
  unfold poscarStepMain
  split
  · split
    · exact quietStep_preparePoscar _ _ _ o
    · exact ⟨[], by simp, by simp⟩
  · exact ⟨[], by simp, by simp⟩


theorem quietStep_chgcarStepMain (env : MainEnv) (cfg : Entries SVal) (task : String) :
    QuietStep (chgcarStepMain env cfg task) := by
  intro o
  unfold chgcarStepMain
  split
  · split
    · exact quietStep_prepareChgcar _ _ _ o
    · exact ⟨[], by simp, by simp⟩
  · exact ⟨[], by simp, by simp⟩


theorem quietStep_potcarStepMain (env : MainEnv) (cfg : Entries SVal) (task : String) :
    QuietStep (potcarStepMain env cfg task) := by
  intro o
  unfold potcarStepMain
  split
  · split
    · exact quietStep_runCommandInTask _ _ _ _ o
    · exact ⟨[], by simp, by simp⟩
  · exact ⟨[], by simp, by simp⟩


theorem quietStep_kpointsStepMain (env : MainEnv) (cfg : Entries SVal) (task : String) :
    QuietStep (kpointsStepMain env cfg task) := by
  intro o
  unfold kpointsStepMain
  split
  · split
    · exact quietStep_runCommandInTask _ _ _ _ o
    · exact ⟨[], by simp, by simp⟩
  · exact ⟨[], by simp, by simp⟩


theorem quietStep_incarStepMain (cfg : Entries SVal) (task : String) :
    QuietStep (incarStepMain cfg task) := by
  intro o
  unfold incarStepMain
  split
  · exact quietStep_writeIncarMain _ _ o
  · exact ⟨[], by simp, by simp⟩


theorem quietStep_jobscriptStepMain (cfg : Entries SVal) (task : String) :
    QuietStep (jobscriptStepMain cfg task) := by
  intro o
  unfold jobscriptStepMain
  split
  · exact quietStep_writeJobscriptMain _ _ o
  · split
    · exact ⟨[], by simp [fail], by simp⟩
    · exact quietStep_writeJobscriptMain _ _ o
  · exact quietStep_writeJobscriptMain _ _ o


/-- `_submit_job` appends no visit, and with `auto_yes` no prompt either. -/
theorem submitJob_delta (ex : List String) (task : String) (ay uc ok : Bool) (o : TaskOut) :
    ∃ d, (submitJob ex task ay uc ok o).events = o.events ++ d
      ∧ (∀ e ∈ d, isVisitE e = false)
      ∧ (ay = true → ∀ e ∈ d, isPromptE e = false) := by
  simp only [submitJob]
  by_cases hx : (!fileEx ex o.written (task ++ "/jobscript.sh")) = true
  · rw [if_pos hx]
    exact ⟨[.skipQsub task], rfl, by simp [isVisitE], by simp [isPromptE]⟩
  · rw [if_neg hx]
    by_cases hay : ay = true
    · rw [if_pos hay]
      by_cases hok : ok = true
      · rw [if_pos hok]
        exact ⟨[.qsub task], rfl, by simp [isVisitE], by simp [isPromptE]⟩
      · rw [if_neg hok]
        exact ⟨[.qsub task], rfl, by simp [isVisitE], by simp [isPromptE]⟩
    · rw [if_neg hay]
      by_cases huc : uc = true
      · rw [if_pos huc]
        by_cases hok : ok = true
        · rw [if_pos hok]
          exact ⟨[.prompt task, .qsub task], by simp [emitW, fail],
            by simp [isVisitE], fun h => absurd h hay⟩
        · rw [if_neg hok]
          exact ⟨[.prompt task, .qsub task], by simp [emitW, fail],
            by simp [isVisitE], fun h => absurd h hay⟩
      · rw [if_neg huc]
        exact ⟨[.prompt task], by simp [emitW, fail], by simp [isVisitE],
          fun h => absurd h hay⟩


theorem visitsOf_append (a b : List MEvent) :
    visitsOf (a ++ b) = visitsOf a ++ visitsOf b := by
  simp [visitsOf, List.filterMap_append]


theorem quietE_no_visit {e : MEvent} (h : quietE e = true) : isVisitE e = false := by
  cases e <;> simp_all [quietE, isVisitE, isPromptE, isQsubE]


theorem quietE_no_prompt {e : MEvent} (h : quietE e = true) : isPromptE e = false := by
  cases e <;> simp_all [quietE, isVisitE, isPromptE, isQsubE]


theorem quietE_no_qsub {e : MEvent} (h : quietE e = true) : isQsubE e = false := by
  cases e <;> simp_all [quietE, isVisitE, isPromptE, isQsubE]


theorem quietStep_comp {f g : TaskOut → TaskOut}
    (hf : QuietStep f) (hg : QuietStep g) : QuietStep (fun o => g (f o)) := by
  intro o
  obtain ⟨d1, h1, q1⟩ := hf o
  obtain ⟨d2, h2, q2⟩ := hg (f o)
  refine ⟨d1 ++ d2, ?_, ?_⟩
  · rw [h2, h1, List.append_assoc]
  · intro e he
    rcases List.mem_append.mp he with h | h
    · exact q1 e h
    · exact q2 e h


theorem quietStep_taskBody (env : MainEnv) (cfg : Entries SVal) (task : String) :
    QuietStep (taskBody env cfg task) := by
  have h1 := quietStep_poscarStepMain env cfg task
  have h2 := quietStep_comp h1 (quietStep_tstep (quietStep_chgcarStepMain env cfg task))
  have h3 := quietStep_comp h2 (quietStep_tstep (quietStep_potcarStepMain env cfg task))
  have h4 := quietStep_comp h3 (quietStep_tstep (quietStep_kpointsStepMain env cfg task))
  have h5 := quietStep_comp h4 (quietStep_tstep (quietStep_incarStepMain cfg task))
  have h6 := quietStep_comp h5 (quietStep_tstep (quietStep_jobscriptStepMain cfg task))
  intro o
  exact h6 o


/-- `_process_task` emits the `visit` first, then no further visit, and
with `--yes` no prompt at all. -/
theorem processTask_delta (env : MainEnv) (config : MainConfig) (task : String)
    (ay : Bool) (w : List String) :
    ∃ d, (processTask env config task ay w).events = [MEvent.visit task] ++ d
      ∧ (∀ e ∈ d, isVisitE e = false)
      ∧ (ay = true → ∀ e ∈ d, isPromptE e = false) := by
  simp only [processTask]
  split
  · rename_i cfg heq
    obtain ⟨d6, he6, hq6⟩ := quietStep_taskBody env cfg task (TaskOut.mk [.visit task] w none)
    show ∃ d, (tstep (taskBody env cfg task (TaskOut.mk [MEvent.visit task] w none))
        (submitJob env.exists0 task ay env.userConfirms env.cmdOk)).events = _ ∧ _
    unfold tstep
    split
    · exact ⟨d6, he6, fun e he => quietE_no_visit (hq6 e he),
        fun _ e he => quietE_no_prompt (hq6 e he)⟩
    · obtain ⟨d7, he7, hv7, hp7⟩ := submitJob_delta env.exists0 task ay env.userConfirms
        env.cmdOk (taskBody env cfg task (TaskOut.mk [.visit task] w none))
      refine ⟨d6 ++ d7, ?_, ?_, ?_⟩
      · rw [he7, he6, List.append_assoc]
      · intro e he
        rcases List.mem_append.mp he with h | h
        · exact quietE_no_visit (hq6 e h)
        · exact hv7 e h
      · intro hay e he
        rcases List.mem_append.mp he with h | h
        · exact quietE_no_prompt (hq6 e h)
        · exact hp7 hay e h
  · exact ⟨[], by simp, by simp, by simp⟩


/-- `_process_task` visits exactly its own task. -/
theorem processTask_visits (env : MainEnv) (config : MainConfig) (task : String)
    (ay : Bool) (w : List String) :
    visitsOf (processTask env config task ay w).events = [task] := by
  obtain ⟨d, he, hv, _⟩ := processTask_delta env config task ay w
  rw [he, visitsOf_append_quiet _ _ hv]
  rfl


/-- With `--yes`, `_process_task` never prompts. -/
theorem processTask_no_prompt (env : MainEnv) (config : MainConfig) (task : String)
    (w : List String) (t : String) :
    MEvent.prompt t ∉ (processTask env config task true w).events := by
  obtain ⟨d, he, _, hp⟩ := processTask_delta env config task true w
  rw [he]
  exact prompt_notin_append _ _ _ (by simp) (hp rfl)


/-- The run loop visits a prefix of its task order, the whole order when
no exception stops it, and never prompts when `--yes` is passed. -/
theorem runTasks_visits (env : MainEnv) (config : MainConfig) (ay : Bool) :
    ∀ (order : List String) (written : List String),
      (∃ t, visitsOf (runTasks env config ay order written).1 ++ t = order)
      ∧ ((runTasks env config ay order written).2.2 = none →
          visitsOf (runTasks env config ay order written).1 = order)
      ∧ (ay = true → ∀ t, MEvent.prompt t ∉ (runTasks env config ay order written).1) := by
  intro order
  induction order with
  | nil =>
    intro written
    refine ⟨⟨[], by simp [runTasks, visitsOf]⟩, fun _ => by simp [runTasks, visitsOf], ?_⟩
    intro _ t
    simp [runTasks]
  | cons n rest ih =>
    intro written
    cases herr : (processTask env config n ay written).err with
    | some e =>
      have hstep : runTasks env config ay (n :: rest) written =
          ((processTask env config n ay written).events,
           (processTask env config n ay written).written, some e) := by
        simp only [runTasks, herr]
      rw [hstep]
      refine ⟨⟨rest, by simp [processTask_visits]⟩, by simp, ?_⟩
      rintro rfl t
      exact processTask_no_prompt env config n written t
    | none =>
      have hstep : runTasks env config ay (n :: rest) written =
          ((processTask env config n ay written).events ++
              (runTasks env config ay rest (processTask env config n ay written).written).1,
           (runTasks env config ay rest (processTask env config n ay written).written).2.1,
           (runTasks env config ay rest (processTask env config n ay written).written).2.2) := by
        simp only [runTasks, herr]
      obtain ⟨⟨tl, htl⟩, hfull, hnp⟩ := ih (processTask env config n ay written).written
      rw [hstep]
      refine ⟨⟨tl, ?_⟩, ?_, ?_⟩
      · show visitsOf ((processTask env config n ay written).events ++
            (runTasks env config ay rest (processTask env config n ay written).written).1) ++ tl
            = n :: rest
        rw [visitsOf_append, processTask_visits, List.append_assoc, htl]
        rfl
      · intro hnone
        show visitsOf ((processTask env config n ay written).events ++
            (runTasks env config ay rest (processTask env config n ay written).written).1)
            = n :: rest
        rw [visitsOf_append, processTask_visits, hfull hnone]
        rfl
      · rintro rfl t hmem
        rcases List.mem_append.mp hmem with h | h
        · exact processTask_no_prompt env config n written t h
        · exact hnp rfl t h


theorem takeWhile_append_all {α : Type} (p : α → Bool) (a b : List α)
    (h : ∀ x ∈ a, p x = true) : (a ++ b).takeWhile p = a ++ b.takeWhile p := by
  induction a with
  | nil => simp
  | cons hd tl ih =>
    have hhd := h hd (by simp)
    simp only [List.cons_append, List.takeWhile_cons, hhd, if_true, List.cons.injEq, true_and]
    exact ih (fun x hx => h x (by simp [hx]))


theorem quietE_ne_qsub {e : MEvent} (h : quietE e = true) (t : String) :
    (e == MEvent.qsub t) = false := by
  have h2 := quietE_no_qsub h
  cases e <;> simp [isQsubE] at h2 ⊢


theorem handleCp_fold_quiet (ex : List String) (cwd : String) (cp : List (String × String)) :
    ∀ o, ∃ d, (cp.foldl (fun acc sd =>
        if fileEx ex acc.written sd.1 then
          emitW acc [.write (cwd ++ "/" ++ sd.2)] [cwd ++ "/" ++ sd.2]
        else acc) o).events = o.events ++ d ∧ ∀ e ∈ d, quietE e = true := by
  induction cp with
  | nil =>
    intro o
    exact ⟨[], by simp, by simp⟩
  | cons hd tl ih =>
    intro o
    rw [List.foldl_cons]
    by_cases hx : fileEx ex o.written hd.1 = true
    · rw [if_pos hx]
      obtain ⟨d, hd2, hq⟩ := ih (emitW o [.write (cwd ++ "/" ++ hd.2)] [cwd ++ "/" ++ hd.2])
      refine ⟨MEvent.write (cwd ++ "/" ++ hd.2) :: d, ?_, ?_⟩
      · rw [hd2]
        simp [emitW]
      · intro e he
        rcases List.mem_cons.mp he with h | h
        · subst h; rfl
        · exact hq e h
    · rw [if_neg hx]
      exact ih o


theorem quietStep_handleCp (config : Entries CVal) (jobType : String)
    (ex : List String) (cwd : String) : QuietStep (handleCp config jobType ex cwd) := by
  intro o
  simp only [handleCp]
  split
  · split
    · split
      · exact ⟨[], by simp, by simp⟩
      · exact handleCp_fold_quiet ex cwd _ o
    · exact ⟨[], by simp, by simp⟩
  · split
    · exact ⟨[], by simp, by simp⟩
    · exact ⟨[], by simp [fail], by simp⟩
  · split
    · exact ⟨[], by simp, by simp⟩
    · exact ⟨[], by simp [fail], by simp⟩
  · exact ⟨[], by simp, by simp⟩
  · exact ⟨[], by simp, by simp⟩


theorem quietStep_writePoscarJob (ex : List String) (cwd : String) (v : CLeaf) :
    QuietStep (writePoscarJob ex cwd v) := by
  intro o
  unfold writePoscarJob
  split
  · split
    · exact ⟨[.write (cwd ++ "/POSCAR")], rfl, by simp [quietE, isVisitE, isPromptE, isQsubE]⟩
    · exact ⟨[], by simp [fail], by simp⟩
  · exact ⟨[], by simp [fail], by simp⟩


theorem quietStep_writeIncarJob (ex : List String) (cwd : String) (v : CLeaf) :
    QuietStep (writeIncarJob ex cwd v) := by
  intro o
  unfold writeIncarJob
  split
  · split
    · exact ⟨[.write (cwd ++ "/INCAR")], rfl, by simp [quietE, isVisitE, isPromptE, isQsubE]⟩
    · exact ⟨[], by simp [fail], by simp⟩
  · exact ⟨[.write (cwd ++ "/INCAR")], rfl, by simp [quietE, isVisitE, isPromptE, isQsubE]⟩
  · exact ⟨[], by simp [fail], by simp⟩


theorem quietStep_writePotcarJob (ex : List String) (cwd : String) (v : CLeaf) :
    QuietStep (writePotcarJob ex cwd v) := by
  intro o
  unfold writePotcarJob
  split
  · split
    · exact ⟨[.write (cwd ++ "/POTCAR")], rfl, by simp [quietE, isVisitE, isPromptE, isQsubE]⟩
    · exact ⟨[], by simp [fail], by simp⟩
  · exact ⟨[], by simp [fail], by simp⟩


theorem quietStep_writeKpointsJob (ex : List String) (cwd : String) (v : CLeaf) :
    QuietStep (writeKpointsJob ex cwd v) := by
  intro o
  unfold writeKpointsJob
  split
  · split
    · exact ⟨[.write (cwd ++ "/KPOINTS")], rfl, by simp [quietE, isVisitE, isPromptE, isQsubE]⟩
    · split
      · exact ⟨[.write (cwd ++ "/KPOINTS")], rfl, by simp [quietE, isVisitE, isPromptE, isQsubE]⟩
      · exact ⟨[], by simp [fail], by simp⟩
  · exact ⟨[.write (cwd ++ "/KPOINTS")], rfl, by simp [quietE, isVisitE, isPromptE, isQsubE]⟩
  · exact ⟨[], by simp, by simp⟩


theorem quietStep_resolveWriteStep (config : Entries CVal) (arg : Option String)
    (key : String) {w : CLeaf → TaskOut → TaskOut}
    (hw : ∀ v, QuietStep (w v)) : QuietStep (resolveWriteStep config arg key w) := by
  intro o
  unfold resolveWriteStep
  show ∃ d, (tstep o _).events = o.events ++ d ∧ ∀ e ∈ d, quietE e = true
  unfold tstep
  split
  · exact ⟨[], by simp, by simp⟩
  · split
    · exact ⟨[], by simp [fail], by simp⟩
    · exact hw _ o


theorem quietStep_jobscriptStepRelax (env : RelaxEnv) (args : RelaxArgs) (cwd : String) :
    QuietStep (jobscriptStepRelax env args cwd) := by
  intro o
  unfold jobscriptStepRelax
  show ∃ d, (tstep o _).events = o.events ++ d ∧ ∀ e ∈ d, quietE e = true
  unfold tstep
  split
  · exact ⟨[], by simp, by simp⟩
  · split
    · rename_i p hp
      show ∃ d, (if fileEx env.exists0 o.written p = true then
          emitW o [.write (cwd ++ "/jobscript.sh")] [cwd ++ "/jobscript.sh"]
        else fail o PyErr.fileNotFound).events = o.events ++ d ∧ ∀ e ∈ d, quietE e = true
      split
      · exact ⟨[.write (cwd ++ "/jobscript.sh")], rfl, by simp [quietE, isVisitE, isPromptE, isQsubE]⟩
      · exact ⟨[], by simp [fail], by simp⟩
    · show ∃ d, (match resolvePath none env.config "relax" "jobscript" with
        | .error e => fail o e
        | .ok (CLeaf.str _) => emitW o [.write (cwd ++ "/jobscript.sh")] [cwd ++ "/jobscript.sh"]
        | .ok _ => fail o PyErr.typeError).events = o.events ++ d ∧ ∀ e ∈ d, quietE e = true
      split
      · exact ⟨[], by simp [fail], by simp⟩
      · exact ⟨[.write (cwd ++ "/jobscript.sh")], rfl, by simp [quietE, isVisitE, isPromptE, isQsubE]⟩
      · exact ⟨[], by simp [fail], by simp⟩


/-- Everything `Job.relax` does before the confirmation gate is quiet:
only writes, command runs and skips — no prompt, no submission. -/
theorem relaxPre_events_quiet (env : RelaxEnv) (args : RelaxArgs) :
    ∀ e ∈ (relaxPre env args).events, quietE e = true := by
  have h1 := quietStep_handleCp env.config "relax" env.exists0 "relax"
  have h2 := quietStep_comp h1 (quietStep_resolveWriteStep env.config args.poscar "poscar"
    (fun v => quietStep_writePoscarJob env.exists0 "relax" v))
  have h3 := quietStep_comp h2 (quietStep_resolveWriteStep env.config args.incar "incar"
    (fun v => quietStep_writeIncarJob env.exists0 "relax" v))
  have h4 := quietStep_comp h3 (quietStep_resolveWriteStep env.config args.potcar "potcar"
    (fun v => quietStep_writePotcarJob env.exists0 "relax" v))
  have h5 := quietStep_comp h4 (quietStep_resolveWriteStep env.config args.kpoints "kpoints"
    (fun v => quietStep_writeKpointsJob env.exists0 "relax" v))
  have h6 := quietStep_comp h5 (quietStep_jobscriptStepRelax env args "relax")
  have h7 := quietStep_comp h6 (quietStep_tstep h1)
  obtain ⟨d, hd, hq⟩ := h7 (TaskOut.mk [] [] none)
  intro e he
  apply hq
  have hxx : (relaxPre env args).events = [] ++ d := hd
  rw [hxx] at he
  simpa using he


/-- The events the confirmation gate of `Job.relax` appends. -/
theorem relaxSubmitGate_events (cwd : String) (yes uc : Bool) (o : TaskOut) :
    (relaxSubmitGate cwd yes uc o).events =
      o.events ++ (if yes then [MEvent.qsub cwd]
        else if uc then [MEvent.prompt cwd, MEvent.qsub cwd] else [MEvent.prompt cwd]) := by
  unfold relaxSubmitGate
  by_cases hy : yes = true
  · simp [hy, emitW]
  · by_cases hu : uc = true <;> simp [hy, hu, emitW, fail]


/-- If a `visit t` event is in the list, `t` is among the visits. -/
theorem visit_mem_visitsOf {t : String} {l : List MEvent}
    (h : MEvent.visit t ∈ l) : t ∈ visitsOf l :=
  List.mem_filterMap.mpr ⟨MEvent.visit t, h, rfl⟩


/-- C10. When `main` is invoked without an explicit task list, it
processes exactly the top-level config keys that are neither `global`
nor `ending`, in the order they appear in the YAML file; a task section
named `ending` is silently never run.  The run visits a prefix of
`yaml_order` (the whole of it when no exception and no user abort cuts
the loop short) and never visits `ending`. -/
theorem main_default_runs_yaml_order (config : MainConfig) (fl : Bool) :
    mainTaskOrder config [] fl = some (yamlOrder config)
    ∧ (∀ k, k ∈ yamlOrder config ↔
        (k ∈ config.map Prod.fst ∧ k ≠ "global" ∧ k ≠ "ending"))
    ∧ (yamlOrder config).Sublist (config.map Prod.fst)
    ∧ "ending" ∉ yamlOrder config
    ∧ (∀ env yes, env.configFile = some config → globalSectionErr config = none →
        env.vaspkitFound = true →
        (∃ t, visitsOf (mainRun env [] yes fl).1 ++ t = yamlOrder config)
        ∧ ((mainRun env [] yes fl).2 = none → MEvent.abortNote ∉ (mainRun env [] yes fl).1 →
            visitsOf (mainRun env [] yes fl).1 = yamlOrder config)
        ∧ MEvent.visit "ending" ∉ (mainRun env [] yes fl).1) := by
  have hmem : ∀ k, k ∈ yamlOrder config ↔
      (k ∈ config.map Prod.fst ∧ k ≠ "global" ∧ k ≠ "ending") := by
    intro k
    simp [yamlOrder, List.mem_filter, not_or]
  have hend : "ending" ∉ yamlOrder config := fun h => ((hmem "ending").mp h).2.2 rfl
  refine ⟨rfl, hmem, List.filter_sublist _, hend, ?_⟩
  intro env yes hcf hge hvk
  obtain ⟨⟨tl, htl⟩, hfull, _⟩ := runTasks_visits env config yes (yamlOrder config) []
  have hsubyaml : ∀ x, x ∈ visitsOf (runTasks env config yes (yamlOrder config) []).1 →
      x ∈ yamlOrder config := by
    intro x hx
    rw [← htl]
    exact List.mem_append.mpr (Or.inl hx)
  cases hr : (runTasks env config yes (yamlOrder config) []).2.2 with
  | none =>
    have heq : mainRun env [] yes fl = ((runTasks env config yes (yamlOrder config) []).1, none) := by
      simp only [mainRun, hcf, hge, hvk, Bool.not_true, Bool.false_eq_true, if_false,
        mainTaskOrder, hr]
    rw [heq]
    refine ⟨⟨tl, htl⟩, fun _ _ => hfull hr, ?_⟩
    intro hmemv
    exact hend (hsubyaml "ending" (visit_mem_visitsOf hmemv))
  | some e =>
    cases e with
    | abortTasks =>
      have heq : mainRun env [] yes fl =
          ((runTasks env config yes (yamlOrder config) []).1 ++ [MEvent.abortNote], none) := by
        simp only [mainRun, hcf, hge, hvk, Bool.not_true, Bool.false_eq_true, if_false,
          mainTaskOrder, hr]
      rw [heq]
      refine ⟨⟨tl, ?_⟩, ?_, ?_⟩
      · rw [visitsOf_append]
        simpa [visitsOf, visitName] using htl
      · intro _ habs
        exact absurd (List.mem_append.mpr (Or.inr (by simp))) habs
      · intro hmemv
        rcases List.mem_append.mp hmemv with h | h
        · exact hend (hsubyaml "ending" (visit_mem_visitsOf h))
        · simp at h
    | fileNotFound =>
      have heq : mainRun env [] yes fl =
          ((runTasks env config yes (yamlOrder config) []).1, some PyErr.fileNotFound) := by
        simp only [mainRun, hcf, hge, hvk, Bool.not_true, Bool.false_eq_true, if_false,
          mainTaskOrder, hr]
      rw [heq]
      exact ⟨⟨tl, htl⟩, fun h => absurd h (by simp),
        fun hmemv => hend (hsubyaml "ending" (visit_mem_visitsOf hmemv))⟩
    | runtimeError =>
      have heq : mainRun env [] yes fl =
          ((runTasks env config yes (yamlOrder config) []).1, some PyErr.runtimeError) := by
        simp only [mainRun, hcf, hge, hvk, Bool.not_true, Bool.false_eq_true, if_false,
          mainTaskOrder, hr]
      rw [heq]
      exact ⟨⟨tl, htl⟩, fun h => absurd h (by simp),
        fun hmemv => hend (hsubyaml "ending" (visit_mem_visitsOf hmemv))⟩
    | valueError =>
      have heq : mainRun env [] yes fl =
          ((runTasks env config yes (yamlOrder config) []).1, some PyErr.valueError) := by
        simp only [mainRun, hcf, hge, hvk, Bool.not_true, Bool.false_eq_true, if_false,
          mainTaskOrder, hr]
      rw [heq]
      exact ⟨⟨tl, htl⟩, fun h => absurd h (by simp),
        fun hmemv => hend (hsubyaml "ending" (visit_mem_visitsOf hmemv))⟩
    | attributeError =>
      have heq : mainRun env [] yes fl =
          ((runTasks env config yes (yamlOrder config) []).1, some PyErr.attributeError) := by
        simp only [mainRun, hcf, hge, hvk, Bool.not_true, Bool.false_eq_true, if_false,
          mainTaskOrder, hr]
      rw [heq]
      exact ⟨⟨tl, htl⟩, fun h => absurd h (by simp),
        fun hmemv => hend (hsubyaml "ending" (visit_mem_visitsOf hmemv))⟩
    | typeError =>
      have heq : mainRun env [] yes fl =
          ((runTasks env config yes (yamlOrder config) []).1, some PyErr.typeError) := by
        simp only [mainRun, hcf, hge, hvk, Bool.not_true, Bool.false_eq_true, if_false,
          mainTaskOrder, hr]
      rw [heq]
      exact ⟨⟨tl, htl⟩, fun h => absurd h (by simp),
        fun hmemv => hend (hsubyaml "ending" (visit_mem_visitsOf hmemv))⟩
    | calledProcessError =>
      have heq : mainRun env [] yes fl =
          ((runTasks env config yes (yamlOrder config) []).1, some PyErr.calledProcessError) := by
        simp only [mainRun, hcf, hge, hvk, Bool.not_true, Bool.false_eq_true, if_false,
          mainTaskOrder, hr]
      rw [heq]
      exact ⟨⟨tl, htl⟩, fun h => absurd h (by simp),
        fun hmemv => hend (hsubyaml "ending" (visit_mem_visitsOf hmemv))⟩
    | abort =>
      have heq : mainRun env [] yes fl =
          ((runTasks env config yes (yamlOrder config) []).1, some PyErr.abort) := by
        simp only [mainRun, hcf, hge, hvk, Bool.not_true, Bool.false_eq_true, if_false,
          mainTaskOrder, hr]
      rw [heq]
      exact ⟨⟨tl, htl⟩, fun h => absurd h (by simp),
        fun hmemv => hend (hsubyaml "ending" (visit_mem_visitsOf hmemv))⟩


/-- Closed witness for `main_default_runs_yaml_order`: the concrete run
visits exactly `relax`, with `global` and `ending` filtered out. -/
theorem main_default_runs_yaml_order_witness :
    visitsOf (mainRun c10Env [] false false).1 = yamlOrder c10Config := by
  have h := main_default_runs_yaml_order c10Config false
  exact (h.2.2.2.2 c10Env false rfl rfl rfl).2.1 (by decide) (by decide)


/-- The events of a `main` run are those of its task loop, possibly
followed by the abort note. -/
theorem mainRun_events_from_runTasks (env : MainEnv) (config : MainConfig)
    (tasks : List String) (yes fl : Bool) (order : List String)
    (hcf : env.configFile = some config) (hge : globalSectionErr config = none)
    (hvk : env.vaspkitFound = true) (hto : mainTaskOrder config tasks fl = some order) :
    (mainRun env tasks yes fl).1 = (runTasks env config yes order []).1
    ∨ (mainRun env tasks yes fl).1 =
        (runTasks env config yes order []).1 ++ [MEvent.abortNote] := by
  cases hr : (runTasks env config yes order []).2.2 with
  | none =>
    left
    simp only [mainRun, hcf, hge, hvk, Bool.not_true, Bool.false_eq_true, if_false, hto, hr]
  | some e =>
    cases e <;>
        simp only [mainRun, hcf, hge, hvk, Bool.not_true, Bool.false_eq_true, if_false,
          hto, hr] <;>
      first
        | (left; trivial)
        | (right; trivial)


/-- With `--yes`, the whole `main` run never prompts. -/
theorem mainRun_yes_no_prompt (env : MainEnv) (tasks : List String) (fl : Bool) (t : String) :
    MEvent.prompt t ∉ (mainRun env tasks true fl).1 := by
  cases hcf : env.configFile with
  | none => simp [mainRun, hcf]
  | some config =>
    cases hge : globalSectionErr config with
    | some e => simp [mainRun, hcf, hge]
    | none =>
      cases hvk : env.vaspkitFound with
      | false => simp [mainRun, hcf, hge, hvk]
      | true =>
        cases hto : mainTaskOrder config tasks fl with
        | none => simp [mainRun, hcf, hge, hvk, hto]
        | some order =>
          obtain ⟨_, _, hnp⟩ := runTasks_visits env config true order []
          have hbase := hnp rfl t
          rcases mainRun_events_from_runTasks env config tasks true fl order
              hcf hge hvk hto with heq | heq <;> rw [heq]
          · exact hbase
          · intro hm
            rcases List.mem_append.mp hm with h | h
            · exact hbase h
            · simp at h


/-- C4. For every job submission: with `--yes`/`-y` no confirmation
prompt ever occurs (in the whole `main` run, and in `Job.relax`); without
it, whenever the `qsub` submission happens, a confirmation prompt
precedes it (in `_submit_job` and in `Job.relax`). -/
theorem submission_confirmation_gate :
    (∀ (env : MainEnv) (tasks : List String) (fl : Bool) (t : String),
      MEvent.prompt t ∉ (mainRun env tasks true fl).1)
    ∧ (∀ (ex w : List String) (task : String) (uc ok : Bool),
      promptBeforeQsub task (submitJob ex task false uc ok (TaskOut.mk [] w none)).events)
    ∧ (∀ (renv : RelaxEnv) (args : RelaxArgs) (t : String), args.yes = true →
      MEvent.prompt t ∉ (relaxRun renv args).events)
    ∧ (∀ (renv : RelaxEnv) (args : RelaxArgs), args.yes = false →
      promptBeforeQsub "relax" (relaxRun renv args).events) := by
  refine ⟨mainRun_yes_no_prompt, ?_, ?_, ?_⟩
  · intro ex w task uc ok
    have hcases : (submitJob ex task false uc ok (TaskOut.mk [] w none)).events =
          [MEvent.skipQsub task]
        ∨ (submitJob ex task false uc ok (TaskOut.mk [] w none)).events =
          [MEvent.prompt task, MEvent.qsub task]
        ∨ (submitJob ex task false uc ok (TaskOut.mk [] w none)).events =
          [MEvent.prompt task] := by
      simp only [submitJob]
      by_cases hx : (!fileEx ex w (task ++ "/jobscript.sh")) = true
      · rw [if_pos hx]
        exact Or.inl rfl
      · rw [if_neg hx]
        by_cases huc : uc = true
        · by_cases hok : ok = true <;>
            simp [huc, hok, emitW, fail]
        · simp [huc, emitW, fail]
    have hne : (MEvent.prompt task == MEvent.qsub task) = false := by
      simp
    have hqq : (MEvent.qsub task == MEvent.qsub task) = true := by
      simp
    unfold promptBeforeQsub
    rcases hcases with hc | hc | hc <;> rw [hc] <;> intro hqmem
    · simp at hqmem
    · simp [List.takeWhile_cons, hne, hqq]
    · simp at hqmem
  · intro renv args t hyes
    have hq := relaxPre_events_quiet renv args
    show MEvent.prompt t ∉ (tstep (relaxPre renv args)
      (relaxSubmitGate "relax" args.yes renv.userConfirms)).events
    unfold tstep
    split
    · intro hm
      have h2 := quietE_no_prompt (hq _ hm)
      simp [isPromptE] at h2
    · rw [relaxSubmitGate_events, hyes]
      intro hm
      rcases List.mem_append.mp hm with h | h
      · have h2 := quietE_no_prompt (hq _ h)
        simp [isPromptE] at h2
      · simp at h
  · intro renv args hyes
    have hq := relaxPre_events_quiet renv args
    show promptBeforeQsub "relax" (tstep (relaxPre renv args)
      (relaxSubmitGate "relax" args.yes renv.userConfirms)).events
    unfold tstep
    split
    · intro hm
      have h2 := quietE_no_qsub (hq _ hm)
      simp [isQsubE] at h2
    · rw [relaxSubmitGate_events, hyes]
      have hpmem : ∀ x ∈ (relaxPre renv args).events,
          (fun e => !(e == MEvent.qsub "relax")) x = true := by
        intro x hx
        simp [quietE_ne_qsub (hq x hx)]
      by_cases huc : renv.userConfirms = true
      · simp only [huc, Bool.false_eq_true, if_false, if_true]
        intro _
        rw [takeWhile_append_all _ _ _ hpmem]
        refine List.mem_append.mpr (Or.inr ?_)
        have hne : (MEvent.prompt "relax" == MEvent.qsub "relax") = false := by simp
        simp [List.takeWhile_cons, hne]
      · simp only [huc, Bool.false_eq_true, if_false]
        intro hqmem
        rcases List.mem_append.mp hqmem with h | h
        · have h2 := quietE_no_qsub (hq _ h)
          simp [isQsubE] at h2
        · simp at h


/-- Closed witness for `submission_confirmation_gate` at concrete inputs. -/
theorem submission_confirmation_gate_witness :
    MEvent.prompt "relax" ∉ (mainRun c10Env [] true false).1
    ∧ promptBeforeQsub "relax" (relaxRun c4RelaxEnv c4RelaxArgs).events :=
  ⟨submission_confirmation_gate.1 c10Env [] false "relax",
   submission_confirmation_gate.2.2.2 c4RelaxEnv c4RelaxArgs rfl⟩


/-- A task whose configured (truthy) POSCAR source does not exist fails
in `_prepare_poscar` with only the `visit` event emitted. -/
theorem processTask_poscar_missing (env : MainEnv) (config : MainConfig) (task : String)
    (cfg : Entries SVal) (ay : Bool) (w : List String) (v : SVal)
    (hsect : getE config task = some (TopVal.sect cfg))
    (hp : getE cfg "poscar" = some v) (ht : v.truthy = true)
    (hex : fileEx env.exists0 w v.pyStr = false) :
    processTask env config task ay w =
      TaskOut.mk [MEvent.visit task] w (some PyErr.fileNotFound) := by
  have h1 : poscarStepMain env cfg task (TaskOut.mk [MEvent.visit task] w none) =
      TaskOut.mk [MEvent.visit task] w (some PyErr.fileNotFound) := by
    simp [poscarStepMain, hp, ht, preparePoscar, hex, fail, emitW]
  simp only [processTask, hsect, taskBody, h1]
  simp [tstep]


/-- `Job.relax` on a missing POSCAR source: the cp copies run first, then
the POSCAR step raises and everything after it is skipped. -/
theorem relaxRun_poscar_missing (renv : RelaxEnv) (args : RelaxArgs) (p : String)
    (harg : args.poscar = none)
    (hres : resolvePath none renv.config "relax" "poscar" = .ok (CLeaf.str p))
    (hcp : (handleCp renv.config "relax" renv.exists0 "relax" (TaskOut.mk [] [] none)).err = none)
    (hex : fileEx renv.exists0
        (handleCp renv.config "relax" renv.exists0 "relax" (TaskOut.mk [] [] none)).written p
        = false) :
    relaxRun renv args =
      fail (handleCp renv.config "relax" renv.exists0 "relax" (TaskOut.mk [] [] none))
        PyErr.fileNotFound := by
  have h2 : resolveWriteStep renv.config args.poscar "poscar"
      (writePoscarJob renv.exists0 "relax")
      (handleCp renv.config "relax" renv.exists0 "relax" (TaskOut.mk [] [] none)) =
      fail (handleCp renv.config "relax" renv.exists0 "relax" (TaskOut.mk [] [] none))
        PyErr.fileNotFound := by
    simp [resolveWriteStep, harg, tstep, hcp, hres, writePoscarJob, hex, fail]
  simp only [relaxRun, relaxPre]
  rw [h2]
  simp [resolveWriteStep, jobscriptStepRelax, tstep, fail, relaxSubmitGate]


/-- C3, amended.  When the configured POSCAR source does not name an
existing file, the task fails with `FileNotFoundError`; in `main.py` no
file at all has been written by then, while in `Job.relax` exactly the
copies of the task's `cp` configuration (which runs before the POSCAR
step) have been written — nothing else. -/
theorem missing_poscar_fails_early :
    (∀ (env : MainEnv) (config : MainConfig) (task : String) (cfg : Entries SVal)
        (ay : Bool) (w : List String) (v : SVal),
      getE config task = some (TopVal.sect cfg) →
      getE cfg "poscar" = some v → v.truthy = true →
      fileEx env.exists0 w v.pyStr = false →
      (processTask env config task ay w).err = some PyErr.fileNotFound
      ∧ writesOf (processTask env config task ay w).events = [])
    ∧ (∀ (renv : RelaxEnv) (args : RelaxArgs) (p : String),
      args.poscar = none →
      resolvePath none renv.config "relax" "poscar" = .ok (CLeaf.str p) →
      (handleCp renv.config "relax" renv.exists0 "relax" (TaskOut.mk [] [] none)).err = none →
      fileEx renv.exists0
        (handleCp renv.config "relax" renv.exists0 "relax" (TaskOut.mk [] [] none)).written p
        = false →
      (relaxRun renv args).err = some PyErr.fileNotFound
      ∧ (relaxRun renv args).events =
          (handleCp renv.config "relax" renv.exists0 "relax" (TaskOut.mk [] [] none)).events) := by
  constructor
  · intro env config task cfg ay w v hsect hp ht hex
    rw [processTask_poscar_missing env config task cfg ay w v hsect hp ht hex]
    exact ⟨rfl, rfl⟩
  · intro renv args p harg hres hcp hex
    rw [relaxRun_poscar_missing renv args p harg hres hcp hex]
    exact ⟨rfl, rfl⟩


/-- Counterexample to C3 as stated ("running the task fails with an
error before any file has been written into the task directory"): at
this concrete input `Job.relax` fails on the missing POSCAR source, yet
the `cp` copy has already been written into `relax/`. -/
theorem missing_poscar_cex :
    (relaxRun c3RelaxEnv c3RelaxArgs).err = some PyErr.fileNotFound
    ∧ writesOf (relaxRun c3RelaxEnv c3RelaxArgs).events ≠ [] := by
  constructor
  · decide
  · decide


/-- Closed witness for `missing_poscar_fails_early` at concrete inputs:
without applicable cp copies, nothing at all is written. -/
theorem missing_poscar_fails_early_witness :
    ((processTask c3MainEnv c3MainConfig "t1" false []).err = some PyErr.fileNotFound
      ∧ writesOf (processTask c3MainEnv c3MainConfig "t1" false []).events = [])
    ∧ ((relaxRun c3RelaxEnvNoCp c3RelaxArgs).err = some PyErr.fileNotFound
      ∧ (relaxRun c3RelaxEnvNoCp c3RelaxArgs).events =
          (handleCp c3RelaxEnvNoCp.config "relax" c3RelaxEnvNoCp.exists0 "relax"
            (TaskOut.mk [] [] none)).events) :=
  ⟨missing_poscar_fails_early.1 c3MainEnv c3MainConfig "t1"
      [("poscar", SVal.str "POSCAR0")] false [] (SVal.str "POSCAR0")
      (by decide) (by decide) (by decide) (by decide),
   missing_poscar_fails_early.2 c3RelaxEnvNoCp c3RelaxArgs "POSCAR0"
      rfl rfl (by decide) (by decide)⟩


/-- C7, amended.  A missing config file, a missing POSCAR source and a
missing vaspkit executable each propagate as an exception that reaches
the CLI boundary (non-zero exit); a missing jobscript at submission time
is instead reported with a skip message and the run continues. -/
theorem missing_file_errors_propagate :
    (∀ (env : MainEnv) (tasks : List String) (yes fl : Bool),
      env.configFile = none → (mainRun env tasks yes fl).2 = some PyErr.fileNotFound)
    ∧ (∀ (env : MainEnv) (config : MainConfig) (tasks : List String) (yes fl : Bool),
      env.configFile = some config → globalSectionErr config = none →
      env.vaspkitFound = false → (mainRun env tasks yes fl).2 = some PyErr.runtimeError)
    ∧ (∀ (env : MainEnv) (config : MainConfig) (task : String) (cfg : Entries SVal)
        (yes : Bool) (v : SVal),
      env.configFile = some config → globalSectionErr config = none →
      env.vaspkitFound = true →
      getE config task = some (TopVal.sect cfg) →
      getE cfg "poscar" = some v → v.truthy = true →
      fileEx env.exists0 [] v.pyStr = false →
      (mainRun env [task] yes false).2 = some PyErr.fileNotFound)
    ∧ (∀ (ex : List String) (task : String) (ay uc ok : Bool) (o : TaskOut),
      fileEx ex o.written (task ++ "/jobscript.sh") = false →
      submitJob ex task ay uc ok o = emitW o [MEvent.skipQsub task] []) := by
  refine ⟨?_, ?_, ?_, ?_⟩
  · intro env tasks yes fl h
    simp [mainRun, h]
  · intro env config tasks yes fl hcf hge hvk
    simp [mainRun, hcf, hge, hvk]
  · intro env config task cfg yes v hcf hge hvk hsect hp ht hex
    have hpt := processTask_poscar_missing env config task cfg yes [] v hsect hp ht hex
    have hto : mainTaskOrder config [task] false = some [task] := rfl
    have hrt : runTasks env config yes [task] [] =
        ([MEvent.visit task], [], some PyErr.fileNotFound) := by
      simp only [runTasks, hpt]
    simp only [mainRun, hcf, hge, hvk, Bool.not_true, Bool.false_eq_true, if_false, hto, hrt]
  · intro ex task ay uc ok o hex
    simp [submitJob, hex]


/-- Counterexample to C7 as stated ("every run that encounters a missing
file (config file, POSCAR source, jobscript) ... terminates with a
non-zero exit via a propagated exception"): at this concrete input the
jobscript is missing at submission time, the run reports the skip and
completes with no exception (exit 0). -/
theorem missing_jobscript_not_fatal_cex :
    (mainRun c7Env [] false false).2 = none
    ∧ MEvent.skipQsub "t1" ∈ (mainRun c7Env [] false false).1 := by
  constructor
  · decide
  · decide


/-- Closed witness for `missing_file_errors_propagate` at concrete
inputs: a missing config file and a missing POSCAR source both leave the
run with a propagated exception. -/
theorem missing_file_errors_propagate_witness :
    (mainRun c7EnvNoConfig [] false false).2 = some PyErr.fileNotFound
    ∧ (mainRun c3MainEnv ["t1"] false false).2 = some PyErr.fileNotFound :=
  ⟨missing_file_errors_propagate.1 c7EnvNoConfig [] false false rfl,
   missing_file_errors_propagate.2.2.1 c3MainEnv c3MainConfig "t1"
      [("poscar", SVal.str "POSCAR0")] false (SVal.str "POSCAR0")
      rfl rfl rfl (by decide) (by decide) (by decide) (by decide)⟩


end Ink
